import Mathlib

/-!
# MyECS: geometry resources, scene registry and camera

A shallow embedding of `MyECS.cpp`.  Scalars (`float`/`double`) are an
arbitrary field `α`; the conversion to `float` is rounding to the nearest binary32 value
(`to_float`), applied where a `double` is stored in a `float` and in the `float` arithmetic
of the ray-plane intersection, and arithmetic is exact elsewhere.  The OpenGL context and
the C++ runtime are explicit state.  Values the C++ program leaves indeterminate
(uninitialised members, reads past the end of a vector) are explicit
arguments, so every statement holds for whatever the machine happens to hold.
-/

set_option autoImplicit false

/-! ## Library types used by the program -/

namespace glm

/-- The `glm::vec3` of the program, over the scalar type `α`. -/
structure vec3 (α : Type) where
  x : α
  y : α
  z : α
deriving DecidableEq

end glm

namespace std

/-- A `std::shared_ptr<T>`; `none` is `nullptr`. -/
abbrev shared_ptr (β : Type) := Option β

/-- A `std::unordered_map<K, T>` as a list of entries; iteration order is unspecified. -/
abbrev unordered_map (κ β : Type) := List (κ × β)

/-- `unordered_map::find`: the entry with the given key; `none` is the `end()` position. -/
def unordered_map.find {κ β : Type} [DecidableEq κ] (m : unordered_map κ β) (key : κ) :
    Option (κ × β) :=
  List.find? (fun e => decide (e.1 = key)) m

/-- `unordered_map::insert`: adds the entry unless its key is already present. -/
def unordered_map.insert {κ β : Type} [DecidableEq κ] (m : unordered_map κ β) (e : κ × β) :
    unordered_map κ β :=
  match unordered_map.find m e.1 with
  | some _ => m
  | none => e :: m

end std

/-- Ways in which the program leaves defined behaviour. -/
inductive fault where
  | null_dereference
  | end_iterator_dereference
deriving DecidableEq

/-! ## The OpenGL context -/

/-- The data store of a buffer object: the byte count given to `glBufferData`
and the floats that were read from client memory. -/
structure buffer_store (α : Type) where
  size : Nat
  floats : List α

/-- The part of the OpenGL context that the geometry classes touch.  `gen_name`
is the driver's choice of a new object name given the names in use. -/
structure gl_state (α : Type) where
  gen_name : List Nat → Nat
  vertex_arrays : List Nat
  buffers : List Nat
  buffer_data : Nat → Option (buffer_store α)
  vertex_array_binding : Nat
  array_buffer_binding : Nat
  attrib_buffer : Nat → Option Nat
  attrib_enabled : Nat → Bool

/-- A driver follows the OpenGL specification when a generated name is
non-zero and was not in use immediately before the call. -/
def gl_state.conforming {α : Type} (gl : gl_state α) : Prop :=
  ∀ used : List Nat, gl.gen_name used ∉ used ∧ gl.gen_name used ≠ 0

section gl
variable {α : Type}

/-- `glGenVertexArrays(1, &name)`. -/
def glGenVertexArrays (gl : gl_state α) : Nat × gl_state α :=
  let name := gl.gen_name gl.vertex_arrays
  (name, { gl with vertex_arrays := name :: gl.vertex_arrays })

/-- `glBindVertexArray(name)`; a name that is not in use is an error (core profile). -/
def glBindVertexArray (gl : gl_state α) (name : Nat) : gl_state α :=
  if name = 0 ∨ name ∈ gl.vertex_arrays then { gl with vertex_array_binding := name } else gl

/-- `glGenBuffers(1, &name)`. -/
def glGenBuffers (gl : gl_state α) : Nat × gl_state α :=
  let name := gl.gen_name gl.buffers
  (name, { gl with buffers := name :: gl.buffers })

/-- `glBindBuffer(GL_ARRAY_BUFFER, name)`; a name that is not in use is an error (core profile). -/
def glBindBuffer (gl : gl_state α) (name : Nat) : gl_state α :=
  if name = 0 ∨ name ∈ gl.buffers then { gl with array_buffer_binding := name } else gl

/-- `glBufferData(GL_ARRAY_BUFFER, size, data, GL_STATIC_DRAW)`, `floats` being what
`size` bytes at `data` hold; with no buffer bound the call is an error. -/
def glBufferData (gl : gl_state α) (size : Nat) (floats : List α) : gl_state α :=
  if gl.array_buffer_binding = 0 then gl
  else { gl with buffer_data := fun name =>
      if name = gl.array_buffer_binding then some ⟨size, floats⟩ else gl.buffer_data name }

/-- `glVertexAttribPointer(0, 3, GL_FLOAT, GL_FALSE, 3 * sizeof(float), 0)`: attribute 0 of the
bound vertex array reads from the bound buffer. -/
def glVertexAttribPointer (gl : gl_state α) : gl_state α :=
  if gl.vertex_array_binding = 0 then gl
  else { gl with attrib_buffer := fun vao =>
      if vao = gl.vertex_array_binding then some gl.array_buffer_binding else gl.attrib_buffer vao }

/-- `glEnableVertexAttribArray(0)`. -/
def glEnableVertexAttribArray (gl : gl_state α) : gl_state α :=
  if gl.vertex_array_binding = 0 then gl
  else { gl with attrib_enabled := fun vao =>
      if vao = gl.vertex_array_binding then true else gl.attrib_enabled vao }

/-- `glDeleteVertexArrays(1, &name)`: zero and names not in use are silently ignored. -/
def glDeleteVertexArrays (gl : gl_state α) (name : Nat) : gl_state α :=
  if name ∈ gl.vertex_arrays then
    { gl with
      vertex_arrays := gl.vertex_arrays.filter (fun n => decide (n ≠ name))
      vertex_array_binding := if gl.vertex_array_binding = name then 0 else gl.vertex_array_binding
      attrib_buffer := fun vao => if vao = name then none else gl.attrib_buffer vao
      attrib_enabled := fun vao => if vao = name then false else gl.attrib_enabled vao }
  else gl

/-- `glDeleteBuffers(1, &name)`: zero and names not in use are silently ignored; the name
is released and the data store is dropped. -/
def glDeleteBuffers (gl : gl_state α) (name : Nat) : gl_state α :=
  if name ∈ gl.buffers then
    { gl with
      buffers := gl.buffers.filter (fun n => decide (n ≠ name))
      array_buffer_binding := if gl.array_buffer_binding = name then 0 else gl.array_buffer_binding
      buffer_data := fun n => if n = name then none else gl.buffer_data n }
  else gl

end gl

/-! ## Process state and platform -/

/-- The process state the geometry code reads and writes: the function-local
static counter of `mk::geo::next_id` and the OpenGL context. -/
structure world (α : Type) where
  __next_id : Nat
  gl : gl_state α

/-- What the C++ implementation fixes but the source does not: the byte size of a
`std::vector<float>` object, and the value found `i` floats past the end of a
vector's storage when the program reads there. -/
structure platform (α : Type) where
  sizeof_vector : Nat
  stray : Nat → α

/-- The values of the members `m_id`, `m_vao`, `m_vbo` of an object whose
constructor has not initialised them. -/
structure indeterminate where
  m_id : Nat
  m_vao : Nat
  m_vbo : Nat

/-- The `n` floats found at `src.data()`: the vector's elements, then whatever
lies behind its storage. -/
def read_floats {α : Type} (P : platform α) (src : List α) (n : Nat) : List α :=
  (List.range n).map (fun i => if h : i < src.length then src.get ⟨i, h⟩ else P.stray (i - src.length))

/-- The state at program start: the counter holds `1ULL`, no GL object exists. -/
def world.initial {α : Type} (gen_name : List Nat → Nat) : world α :=
  { __next_id := 1
    gl :=
      { gen_name := gen_name
        vertex_arrays := []
        buffers := []
        buffer_data := fun _ => none
        vertex_array_binding := 0
        array_buffer_binding := 0
        attrib_buffer := fun _ => none
        attrib_enabled := fun _ => false } }

/-! ## `namespace mk` -/

namespace mk

/-- The class `mk::location`. -/
structure location (α : Type) where
  pos : glm.vec3 α
deriving DecidableEq

/-- The constructor `location() : pos(0)`. -/
def location.default {α : Type} [Zero α] : location α := ⟨⟨0, 0, 0⟩⟩

namespace geo

variable {α : Type}

/-- The constant `mk::geo::error_id`. -/
def error_id : Nat := 0

/-- `mk::geo::next_id`: returns the `unsigned long long` counter and increments it
(`size_t` and `unsigned long long` are both 64 bits wide). -/
def next_id (w : world α) : Nat × world α :=
  (w.__next_id, { w with __next_id := (w.__next_id + 1) % 2 ^ 64 })

/-- The data members of `mk::geo::triangle`; `m_id` is a `GLuint`. -/
structure triangle (α : Type) where
  m_id : Nat
  m_vao : Nat
  m_vbo : Nat
  m_location : mk.location α
  m_vertices : List α
deriving DecidableEq

/-- `triangle::build`, run on an object whose `m_location` and `m_vertices` are set.
The `size_t` returned by `next_id` is stored in the 32-bit `m_id`. -/
def triangle.build (w : world α) (m_location : mk.location α) (m_vertices : List α) :
    triangle α × world α :=
  let r1 := glGenVertexArrays w.gl
  let m_vao := r1.1
  let gl := glBindVertexArray r1.2 m_vao
  let r2 := glGenBuffers gl
  let m_vbo := r2.1
  let gl := glBindBuffer r2.2 m_vbo
  let gl := glBufferData gl (4 * m_vertices.length) m_vertices
  let gl := glVertexAttribPointer gl
  let gl := glEnableVertexAttribArray gl
  let r3 := next_id { w with gl := gl }
  ({ m_id := r3.1 % 2 ^ 32, m_vao := m_vao, m_vbo := m_vbo,
     m_location := m_location, m_vertices := m_vertices }, r3.2)

/-- The constructor `triangle(std::array<float, 9> vertices)`. -/
def triangle.ctor [Zero α] (w : world α) (vertices : Fin 9 → α) : triangle α × world α :=
  triangle.build w location.default (List.ofFn vertices)

/-- The copy constructor `triangle(const triangle &other)`, which delegates to
`triangle(std::vector<float> vertices, bool)`. -/
def triangle.copy_ctor [Zero α] (w : world α) (other : triangle α) : triangle α × world α :=
  triangle.build w location.default other.m_vertices

/-- The move constructor `triangle(triangle &&other)`: the new object and `other` afterwards.
`m_location` and `m_vertices` are default-constructed before the swaps, `m_vao` and `m_vbo`
are not initialised, and `m_id` is neither initialised nor swapped. -/
def triangle.move_ctor [Zero α] (junk : indeterminate) (other : triangle α) :
    triangle α × triangle α :=
  ({ m_id := junk.m_id, m_vao := other.m_vao, m_vbo := other.m_vbo,
     m_location := other.m_location, m_vertices := other.m_vertices },
   { m_id := other.m_id, m_vao := junk.m_vao, m_vbo := junk.m_vbo,
     m_location := location.default, m_vertices := [] })

/-- The destructor `~triangle()`. -/
def triangle.dtor (w : world α) (t : triangle α) : world α :=
  { w with gl := glDeleteBuffers (glDeleteVertexArrays w.gl t.m_vao) t.m_vbo }

/-- `triangle::set_vertices`: the upload size is `sizeof m_vertices`, the size of the
vector object. -/
def triangle.set_vertices (P : platform α) (w : world α) (t : triangle α) (vertices : List α) :
    triangle α × world α :=
  let gl := glBindBuffer w.gl t.m_vbo
  let gl := glBufferData gl P.sizeof_vector (read_floats P vertices (P.sizeof_vector / 4))
  ({ t with m_vertices := vertices }, { w with gl := gl })

/-- The array `__cube_vertices` (36 vertices, 108 floats). -/
def __cube_vertices [Field α] : List α :=
  let n : α := -(1 / 2)
  let p : α := 1 / 2
  [ n, n, n,  p, n, n,  p, p, n,  p, p, n,  n, p, n,  n, n, n,
    n, n, p,  p, n, p,  p, p, p,  p, p, p,  n, p, p,  n, n, p,
    n, p, p,  n, p, n,  n, n, n,  n, n, n,  n, n, p,  n, p, p,
    p, p, p,  p, p, n,  p, n, n,  p, n, n,  p, n, p,  p, p, p,
    n, n, n,  p, n, n,  p, n, p,  p, n, p,  n, n, p,  n, n, n,
    n, p, n,  p, p, n,  p, p, p,  p, p, p,  n, p, p,  n, p, n ]

/-- The data members of `mk::geo::cube`; `m_id` is a `std::size_t`. -/
structure cube (α : Type) where
  m_id : Nat
  m_vao : Nat
  m_vbo : Nat
  m_location : mk.location α
  m_vertices : List α
deriving DecidableEq

/-- The constructor `cube()`. -/
def cube.ctor [Field α] (w : world α) : cube α × world α :=
  let r1 := glGenVertexArrays w.gl
  let m_vao := r1.1
  let gl := glBindVertexArray r1.2 m_vao
  let r2 := glGenBuffers gl
  let m_vbo := r2.1
  let gl := glBindBuffer r2.2 m_vbo
  let gl := glBufferData gl (108 * 4) __cube_vertices
  let gl := glVertexAttribPointer gl
  let gl := glEnableVertexAttribArray gl
  let r3 := next_id { w with gl := gl }
  ({ m_id := r3.1, m_vao := m_vao, m_vbo := m_vbo,
     m_location := ⟨⟨0, 0, 0⟩⟩, m_vertices := __cube_vertices }, r3.2)

/-- The copy constructor `cube(const cube &other)`: the upload reads
`sizeof __cube_vertices` bytes at `m_vertices.data()`. -/
def cube.copy_ctor (P : platform α) (w : world α) (other : cube α) : cube α × world α :=
  let m_vertices := other.m_vertices
  let m_location := other.m_location
  let r0 := next_id w
  let m_id := r0.1
  let r1 := glGenVertexArrays r0.2.gl
  let m_vao := r1.1
  let gl := glBindVertexArray r1.2 m_vao
  let r2 := glGenBuffers gl
  let m_vbo := r2.1
  let gl := glBindBuffer r2.2 m_vbo
  let gl := glBufferData gl (108 * 4) (read_floats P m_vertices 108)
  let gl := glVertexAttribPointer gl
  let gl := glEnableVertexAttribArray gl
  ({ m_id := m_id, m_vao := m_vao, m_vbo := m_vbo,
     m_location := m_location, m_vertices := m_vertices }, { r0.2 with gl := gl })

/-- The move constructor `cube(cube &&other)`: the new object and `other` afterwards.
`m_vertices` and `m_location` are default-constructed before the swaps; `m_id`, `m_vao`
and `m_vbo` are swapped with members that were never initialised. -/
def cube.move_ctor [Zero α] (junk : indeterminate) (other : cube α) : cube α × cube α :=
  ({ m_id := other.m_id, m_vao := other.m_vao, m_vbo := other.m_vbo,
     m_location := other.m_location, m_vertices := other.m_vertices },
   { m_id := junk.m_id, m_vao := junk.m_vao, m_vbo := junk.m_vbo,
     m_location := location.default, m_vertices := [] })

/-- The destructor `~cube()`. -/
def cube.dtor (w : world α) (c : cube α) : world α :=
  { w with gl := glDeleteBuffers (glDeleteVertexArrays w.gl c.m_vao) c.m_vbo }

/-- `cube::set_vertices`: the upload size is always `108 * sizeof(float)`. -/
def cube.set_vertices (P : platform α) (w : world α) (c : cube α) (vertices : List α) :
    cube α × world α :=
  let gl := glBindBuffer w.gl c.m_vbo
  let gl := glBufferData gl (108 * 4) (read_floats P vertices 108)
  ({ c with m_vertices := vertices }, { w with gl := gl })

/-- The abstract class `mk::geo::geometry` with its two implementers. -/
inductive geometry (α : Type) where
  | triangle (t : triangle α)
  | cube (c : cube α)
deriving DecidableEq

/-- The virtual `get_id`. -/
def geometry.get_id : geometry α → Nat
  | .triangle t => t.m_id
  | .cube c => c.m_id

/-- The virtual `get_vao`. -/
def geometry.get_vao : geometry α → Nat
  | .triangle t => t.m_vao
  | .cube c => c.m_vao

/-- The virtual `get_vbo`. -/
def geometry.get_vbo : geometry α → Nat
  | .triangle t => t.m_vbo
  | .cube c => c.m_vbo

/-- The virtual `get_location`. -/
def geometry.get_location : geometry α → mk.location α
  | .triangle t => t.m_location
  | .cube c => c.m_location

/-- The virtual `get_vertices`. -/
def geometry.get_vertices : geometry α → List α
  | .triangle t => t.m_vertices
  | .cube c => c.m_vertices

/-- The virtual `set_vertices`. -/
def geometry.set_vertices (P : platform α) (w : world α) (g : geometry α) (vertices : List α) :
    geometry α × world α :=
  match g with
  | .triangle t =>
    (geometry.triangle (triangle.set_vertices P w t vertices).1, (triangle.set_vertices P w t vertices).2)
  | .cube c =>
    (geometry.cube (cube.set_vertices P w c vertices).1, (cube.set_vertices P w c vertices).2)

/-- Copy construction of either shape. -/
def geometry.copy_ctor [Zero α] (P : platform α) (w : world α) (g : geometry α) :
    geometry α × world α :=
  match g with
  | .triangle t => (geometry.triangle (triangle.copy_ctor w t).1, (triangle.copy_ctor w t).2)
  | .cube c => (geometry.cube (cube.copy_ctor P w c).1, (cube.copy_ctor P w c).2)

/-- Move construction of either shape: the new object and the source afterwards. -/
def geometry.move_ctor [Zero α] (junk : indeterminate) (g : geometry α) :
    geometry α × geometry α :=
  match g with
  | .triangle t =>
    (geometry.triangle (triangle.move_ctor junk t).1, geometry.triangle (triangle.move_ctor junk t).2)
  | .cube c => (geometry.cube (cube.move_ctor junk c).1, geometry.cube (cube.move_ctor junk c).2)

/-- Destruction of either shape. -/
def geometry.dtor (w : world α) : geometry α → world α
  | .triangle t => triangle.dtor w t
  | .cube c => cube.dtor w c

/-- The two ways the program creates a geometry: `create_triangle(vertices)` and `create_cube()`. -/
inductive creation (α : Type) where
  | create_triangle (vertices : Fin 9 → α)
  | create_cube

/-- One creation: `create_triangle` or `create_cube`. -/
def create [Field α] (w : world α) : creation α → geometry α × world α
  | .create_triangle vertices =>
    (geometry.triangle (triangle.ctor w vertices).1, (triangle.ctor w vertices).2)
  | .create_cube => (geometry.cube (cube.ctor w).1, (cube.ctor w).2)

/-- Whether a creation is `create_triangle`. -/
def creation.is_triangle : creation α → Bool
  | .create_triangle _ => true
  | .create_cube => false

/-- A sequence of creations, in order; the geometries created and the final state. -/
def create_all [Field α] (w : world α) : List (creation α) → List (geometry α) × world α
  | [] => ([], w)
  | k :: ks =>
    let r := create w k
    let rest := create_all r.2 ks
    (r.1 :: rest.1, rest.2)

end geo
end mk

/-! ## The scene registry -/

/-- The class `gl_scene`. -/
structure gl_scene (α : Type) where
  geometries : std.unordered_map Nat (std.shared_ptr (mk.geo.geometry α))
  m_sky_color : α × α × α × α

namespace gl_scene

variable {α : Type}

/-- The constructor `gl_scene() : m_sky_color({})`. -/
def ctor [Zero α] : gl_scene α := { geometries := [], m_sky_color := (0, 0, 0, 0) }

/-- `gl_scene::add_geometry`. -/
def add_geometry (s : gl_scene α) (geometry : std.shared_ptr (mk.geo.geometry α)) :
    Except fault (gl_scene α) :=
  match geometry with
  | none => .error fault.null_dereference
  | some g => .ok { s with geometries := std.unordered_map.insert s.geometries (g.get_id, geometry) }

/-- `gl_scene::get_geometry`: when `find` gives the `end()` position the function
evaluates `match->second`, otherwise it returns `nullptr`. -/
def get_geometry (s : gl_scene α) (key : Nat) :
    Except fault (std.shared_ptr (mk.geo.geometry α)) :=
  match std.unordered_map.find s.geometries key with
  | none => .error fault.end_iterator_dereference
  | some _ => .ok none

end gl_scene

/-! ## Conversion to `float` -/

section float_conversion

variable {α : Type} [LinearOrderedField α] [FloorRing α]

/-- The integer nearest to `x`; when `x` lies half way between two integers, the even
one. -/
def round_half_even (x : α) : Int :=
  if x - ⌊x⌋ < 1 / 2 then ⌊x⌋
  else if 1 / 2 < x - ⌊x⌋ then ⌊x⌋ + 1
  else if ⌊x⌋ % 2 = 0 then ⌊x⌋ else ⌊x⌋ + 1

/-- The spacing of the `float` values (IEEE 754 binary32) next to a non-zero `x`:
`2 ^ (e - 23)` where `2 ^ e ≤ |x| < 2 ^ (e + 1)`, and `2 ^ -149` throughout the subnormal
range below `2 ^ -126`. -/
def float_ulp (x : α) : α := 2 ^ (max (Int.log 2 |x|) (-126) - 23)

/-- The multiple of `float_ulp x` nearest to `x`, ties to the even multiple. -/
def float_round (x : α) : α := (round_half_even (x / float_ulp x) : α) * float_ulp x

/-- The conversion to `float`, round to nearest even: what the assignment of a `double`
to a `float` does, and what every `float` operation does with its exact result.  The
value `2 ^ 128`, which is not a `float`, stands for the infinity that overflow gives. -/
def to_float (x : α) : α :=
  if 2 ^ 128 ≤ |float_round x| then (if 0 ≤ x then 2 ^ 128 else -2 ^ 128) else float_round x

/-- Whether `x` is a finite value of the type `float`. -/
def is_float (x : α) : Prop := to_float x = x ∧ |x| < 2 ^ 128

/-- The sum of two `float` values. -/
def float_add (a b : α) : α := to_float (a + b)

/-- The difference of two `float` values. -/
def float_sub (a b : α) : α := to_float (a - b)

/-- The product of two `float` values. -/
def float_mul (a b : α) : α := to_float (a * b)

/-- The quotient of two `float` values. -/
def float_div (a b : α) : α := to_float (a / b)

end float_conversion

/-! ## The camera -/

/-- The functions of `<cmath>` that the camera code calls, over the scalar type `α`. -/
structure cmath (α : Type) where
  sin : α → α
  cos : α → α
  sqrt : α → α

namespace glm

variable {α : Type}

/-- `glm::radians`: multiplication by the library's constant for pi / 180. -/
def radians [Field α] (degrees : α) : α :=
  degrees * (1745329251994329576923690768489 / 100000000000000000000000000000000)

/-- `glm::dot` on `vec3`. -/
def dot [Field α] (a b : vec3 α) : α := a.x * b.x + a.y * b.y + a.z * b.z

/-- `glm::length` on `vec3`. -/
def length [Field α] (M : cmath α) (v : vec3 α) : α := M.sqrt (dot v v)

/-- `glm::normalize` on `vec3`: `v * inversesqrt(dot(v, v))`.  At the zero vector the
library divides by zero and its result is not a number; no result below is about the
value this definition has there. -/
def normalize [Field α] (M : cmath α) (v : vec3 α) : vec3 α :=
  let k := 1 / M.sqrt (dot v v)
  ⟨v.x * k, v.y * k, v.z * k⟩

end glm

namespace mk

/-- The data members of `mk::gl_camera`. -/
structure gl_camera (α : Type) where
  pos : glm.vec3 α
  front : glm.vec3 α
  up : glm.vec3 α
  field_of_view : α
  aspect : α
  near : α
  far : α
  movement_enabled : Bool
  speed : α
  m_pitch : α
  m_yaw : α
  m_velocity : glm.vec3 α

namespace gl_camera

variable {α : Type}

/-- `gl_camera::set_rotation(double pitch, double yaw)`.  The assignments to the `float`
members `m_pitch` and `m_yaw` convert the `double` arguments; the components of `front`
and `m_velocity` are computed exactly in this model. -/
def set_rotation [LinearOrderedField α] [FloorRing α] (M : cmath α) (cam : gl_camera α)
    (pitch yaw : α) : gl_camera α :=
  let front := glm.normalize M
    ⟨M.sin (glm.radians yaw) * M.cos (glm.radians pitch),
     M.sin (glm.radians pitch),
     -M.cos (glm.radians yaw) * M.cos (glm.radians pitch)⟩
  { cam with
    front := front
    m_pitch := to_float pitch
    m_yaw := to_float yaw
    m_velocity := glm.normalize M ⟨front.x, 0, front.z⟩ }

/-- `gl_camera::get_pitch`: the value of the `float` member `m_pitch`.  The member
ranges over all of `α` in this model; what is read from it is a `float` value, and
`to_float` leaves `float` values unchanged. -/
def get_pitch [LinearOrderedField α] [FloorRing α] (cam : gl_camera α) : α :=
  to_float cam.m_pitch

/-- `gl_camera::get_yaw`: the value of the `float` member `m_yaw`, read as `m_pitch` is. -/
def get_yaw [LinearOrderedField α] [FloorRing α] (cam : gl_camera α) : α :=
  to_float cam.m_yaw

/-- `gl_camera::get_velocity`. -/
def get_velocity (cam : gl_camera α) : glm.vec3 α := cam.m_velocity

/-- The constructor `gl_camera(glm::vec3 camera_pos)`.  It does not initialise `aspect`,
`m_pitch`, `m_yaw` and `m_velocity`; `set_rotation(0, 0)` then assigns the last three, and
`junk_aspect` is what `aspect` holds. -/
def ctor [LinearOrderedField α] [FloorRing α] (M : cmath α) (junk_aspect : α)
    (camera_pos : glm.vec3 α) : gl_camera α :=
  set_rotation M
    { pos := camera_pos
      front := ⟨0, 0, -1⟩
      up := ⟨0, 1, 0⟩
      field_of_view := 45
      aspect := junk_aspect
      near := 1 / 10
      far := 1000
      movement_enabled := true
      speed := 5
      m_pitch := 0
      m_yaw := 0
      m_velocity := ⟨0, 0, 0⟩ }
    0 0

end gl_camera
end mk

/-! ## Vectors, matrices and the library functions of the view pipeline -/

namespace glm

variable {α : Type}

/-- The `operator+` of `glm::vec3`. -/
def vec3.add [Field α] (a b : vec3 α) : vec3 α := ⟨a.x + b.x, a.y + b.y, a.z + b.z⟩

/-- The `operator-` of `glm::vec3`. -/
def vec3.sub [Field α] (a b : vec3 α) : vec3 α := ⟨a.x - b.x, a.y - b.y, a.z - b.z⟩

/-- The product `scalar * vec3`. -/
def vec3.scale [Field α] (k : α) (v : vec3 α) : vec3 α := ⟨k * v.x, k * v.y, k * v.z⟩

/-- The product `vec3 * scalar`. -/
def vec3.scale_right [Field α] (v : vec3 α) (k : α) : vec3 α := ⟨v.x * k, v.y * k, v.z * k⟩

/-- `glm::cross`. -/
def cross [Field α] (x y : vec3 α) : vec3 α :=
  ⟨x.y * y.z - y.y * x.z, x.z * y.x - y.z * x.x, x.x * y.y - y.x * x.y⟩

/-- A `glm::vec4`: the components x, y, z, w. -/
abbrev vec4 (α : Type) := Fin 4 → α

/-- A `glm::mat4` as the matrix it denotes: entry `(row, col)` is the library's `m[col][row]`. -/
abbrev mat4 (α : Type) := Matrix (Fin 4) (Fin 4) α

/-- The constructor `vec4(vec3, w)`. -/
def vec4.of_vec3 (v : vec3 α) (w : α) : vec4 α := ![v.x, v.y, v.z, w]

/-- The constructor `vec3(vec4)`, which drops `w`. -/
def vec4.to_vec3 (v : vec4 α) : vec3 α := ⟨v 0, v 1, v 2⟩

/-- `glm::translate(m, v)`: the last column becomes `m[0] * v.x + m[1] * v.y + m[2] * v.z + m[3]`. -/
def translate [Field α] (m : mat4 α) (v : vec3 α) : mat4 α :=
  Matrix.of fun i j => if j = 3 then m i 0 * v.x + m i 1 * v.y + m i 2 * v.z + m i 3 else m i j

/-- The value of `std::numeric_limits<float>::epsilon()`. -/
def epsilon [Field α] : α := 1 / 8388608

/-- `glm::dot` on `vec3` in `float` arithmetic: the three products, then their sum from
left to right, every operation rounded. -/
def dot_float [LinearOrderedField α] [FloorRing α] (a b : vec3 α) : α :=
  float_add (float_add (float_mul a.x b.x) (float_mul a.y b.y)) (float_mul a.z b.z)

/-- The `operator+` of `glm::vec3` in `float` arithmetic. -/
def vec3.add_float [LinearOrderedField α] [FloorRing α] (a b : vec3 α) : vec3 α :=
  ⟨float_add a.x b.x, float_add a.y b.y, float_add a.z b.z⟩

/-- The `operator-` of `glm::vec3` in `float` arithmetic. -/
def vec3.sub_float [LinearOrderedField α] [FloorRing α] (a b : vec3 α) : vec3 α :=
  ⟨float_sub a.x b.x, float_sub a.y b.y, float_sub a.z b.z⟩

/-- The product `scalar * vec3` in `float` arithmetic. -/
def vec3.scale_float [LinearOrderedField α] [FloorRing α] (k : α) (v : vec3 α) : vec3 α :=
  ⟨float_mul k v.x, float_mul k v.y, float_mul k v.z⟩

/-- `glm::intersectRayPlane` on `float` vectors: whether the ray meets the plane, and the
value of the reference argument `intersectionDistance` afterwards. -/
def intersectRayPlane [LinearOrderedField α] [FloorRing α]
    (orig dir planeOrig planeNormal : vec3 α) (intersectionDistance : α) : Bool × α :=
  let d := dot_float dir planeNormal
  if |d| > epsilon then
    let tmp_intersectionDistance :=
      float_div (dot_float (vec3.sub_float planeOrig orig) planeNormal) d
    if tmp_intersectionDistance > 0 then (true, tmp_intersectionDistance)
    else (false, intersectionDistance)
  else (false, intersectionDistance)

end glm

/-! ## Transform, view pipeline, input handling and picking -/

namespace mk

variable {α : Type}

/-- `mk::location::get_matrix`. -/
def location.get_matrix [Field α] (l : location α) : glm.mat4 α :=
  glm.translate (1 : glm.mat4 α) l.pos

namespace gl_camera

/-- The enumeration `gl_camera::direction`. -/
inductive direction where
  | FRONT
  | BACK
  | FRONT_LEFT
  | FRONT_RIGHT
deriving DecidableEq

/-- `gl_camera::set_rotation(direction)`. -/
def set_rotation_direction [LinearOrderedField α] [FloorRing α] (M : cmath α)
    (cam : gl_camera α) :
    direction → gl_camera α
  | .FRONT => set_rotation M cam 0 0
  | .BACK => set_rotation M cam (-90) 0
  | .FRONT_LEFT => set_rotation M cam (-45) 0
  | .FRONT_RIGHT => set_rotation M cam 45 0

end gl_camera

/-- The namespace-scope variables `mk::default_camera`, `mk::first_mouse`, `mk::yaw`
and `mk::pitch`. -/
structure globals (α : Type) where
  default_camera : gl_camera α
  first_mouse : Bool
  yaw : α
  pitch : α

/-- The namespace-scope variables at program start. -/
def globals.initial [LinearOrderedField α] [FloorRing α] (M : cmath α) (junk_aspect : α) :
    globals α :=
  { default_camera := gl_camera.ctor M junk_aspect ⟨0, 0, 30⟩
    first_mouse := true
    yaw := 0
    pitch := 0 }

end mk

/-- The keys that `handle_input` polls with `glfwGetKey`: whether each is pressed. -/
structure key_state where
  W : Bool
  S : Bool
  A : Bool
  D : Bool
  SPACE : Bool
  LEFT_SHIFT : Bool

/-- The function-local statics `delta_time` and `last_frame` of `handle_input`. -/
structure handle_input_statics (α : Type) where
  delta_time : α
  last_frame : α

/-- `handle_input`, on the camera `mk::default_camera`; `glfwGetTime` is the value that
call returns. -/
def handle_input {α : Type} [Field α] (M : cmath α) (cam : mk.gl_camera α)
    (st : handle_input_statics α) (keys : key_state) (glfwGetTime : α) :
    mk.gl_camera α × handle_input_statics α :=
  if !cam.movement_enabled then (cam, st)
  else
    let current_frame := glfwGetTime
    let delta_time := current_frame - st.last_frame
    let last_frame := current_frame
    let camera_speed := cam.speed * delta_time
    let side := glm.normalize M (glm.cross cam.front cam.up)
    let pos := cam.pos
    let pos := if keys.W then glm.vec3.add pos (glm.vec3.scale camera_speed cam.get_velocity) else pos
    let pos := if keys.S then glm.vec3.sub pos (glm.vec3.scale camera_speed cam.get_velocity) else pos
    let pos := if keys.A then glm.vec3.sub pos (glm.vec3.scale_right side camera_speed) else pos
    let pos := if keys.D then glm.vec3.add pos (glm.vec3.scale_right side camera_speed) else pos
    let pos := if keys.SPACE then { pos with y := pos.y + camera_speed } else pos
    let pos := if keys.LEFT_SHIFT then { pos with y := pos.y - camera_speed } else pos
    ({ cam with pos := pos }, { delta_time := delta_time, last_frame := last_frame })

/-- The function-local statics `last_x`, `last_y`, `pitch` and `yaw` of `mouse_callback`. -/
structure mouse_callback_statics (α : Type) where
  last_x : α
  last_y : α
  pitch : α
  yaw : α

/-- `mouse_callback`.  `st` is `none` before the first call, which initialises the statics
from its own arguments; `cursor_normal` tells whether `glfwGetInputMode(window, GLFW_CURSOR)`
is `GLFW_CURSOR_NORMAL`.  The sensitivity is the `float` nearest to 0.1; the statics are
`double`, the variables `mk::yaw` and `mk::pitch` are `float`. -/
def mouse_callback {α : Type} [LinearOrderedField α] [FloorRing α] (M : cmath α)
    (g : mk.globals α)
    (st : Option (mouse_callback_statics α)) (cursor_normal : Bool) (xpos ypos : α) :
    mk.globals α × mouse_callback_statics α :=
  let st : mouse_callback_statics α :=
    match st with
    | some s => s
    | none => { last_x := xpos, last_y := ypos, pitch := 0, yaw := 0 }
  let st := if g.first_mouse then { st with last_x := xpos, last_y := ypos } else st
  if cursor_normal || !g.default_camera.movement_enabled then (g, st)
  else
    let x_offset := xpos - st.last_x
    let y_offset := st.last_y - ypos
    let sensitivity : α := 13421773 / 134217728
    let x_offset := x_offset * sensitivity
    let y_offset := y_offset * sensitivity
    let yaw := st.yaw + x_offset
    let pitch := st.pitch + y_offset
    let pitch := if pitch > 89 then 89 else pitch
    let pitch := if pitch < -89 then -89 else pitch
    let pitch := if g.first_mouse then g.default_camera.get_pitch else pitch
    let yaw := if g.first_mouse then g.default_camera.get_yaw else yaw
    ({ default_camera := g.default_camera.set_rotation M pitch yaw
       first_mouse := false
       yaw := to_float yaw
       pitch := to_float pitch },
     { last_x := xpos, last_y := ypos, pitch := pitch, yaw := yaw })

/-- What one frame of the screen-to-world picker in `main` computes: the result of
`glm::intersectRayPlane` (which `main` discards), `distance`, and the final value of
`projection`, the placement point. -/
structure pick (α : Type) where
  reported : Bool
  distance : α
  placement : glm.vec3 α

/-- The last two statements of the picker in `main`, in `float` arithmetic (every
operation rounded on its own): the intersection with the plane `y = offset` and the
placement point.  `pos` is the camera
position, `projection` the pick ray, the value that
`glm::normalize(glm::unProject(...) - pos)` gave for the cursor position and the window
size, and `offset` is `controls::offset`. -/
def pick_plane {α : Type} [LinearOrderedField α] [FloorRing α] (pos projection : glm.vec3 α)
    (offset : α) : pick α :=
  let distance : α := 0
  let r := glm.intersectRayPlane pos projection ⟨0, offset, 0⟩ ⟨0, 1, 0⟩ distance
  { reported := r.1
    distance := r.2
    placement := glm.vec3.add_float (glm.vec3.scale_float r.2 projection) pos }

/-! ## Assignment operators and the sphere mesh -/

namespace mk
namespace geo

variable {α : Type}

/-- The move assignment `triangle::operator=(triangle &&other)`: `*this` and `other`
afterwards.  It swaps `m_vao`, `m_vbo`, `m_location` and `m_vertices`. -/
def triangle.move_assign (this other : triangle α) : triangle α × triangle α :=
  ({ this with m_vao := other.m_vao, m_vbo := other.m_vbo,
               m_location := other.m_location, m_vertices := other.m_vertices },
   { other with m_vao := this.m_vao, m_vbo := this.m_vbo,
                m_location := this.m_location, m_vertices := this.m_vertices })

/-- The copy assignment `triangle::operator=(const triangle &other)`, that is
`*this = triangle(other)`: the temporary is copy-constructed, move-assigned from and
destroyed. -/
def triangle.copy_assign [Zero α] (w : world α) (this other : triangle α) :
    triangle α × world α :=
  let r := triangle.copy_ctor w other
  let a := triangle.move_assign this r.1
  (a.1, triangle.dtor r.2 a.2)

/-- The move assignment `cube::operator=(cube &&other)`, that is `*this = cube(other)`:
`other` is an lvalue inside the function, so `cube(other)` is a copy construction and the
assignment of that temporary calls this operator again.  `fuel` bounds the depth of the
nested calls; `.error w` means the bound was reached, in the state `w`. -/
def cube.move_assign (P : platform α) :
    Nat → world α → cube α → cube α → Except (world α) (cube α × world α)
  | 0, w, _, _ => .error w
  | fuel + 1, w, this, other =>
    let r := cube.copy_ctor P w other
    match cube.move_assign P fuel r.2 this r.1 with
    | .error w1 => .error w1
    | .ok (this1, w1) => .ok (this1, cube.dtor w1 r.1)

/-- The copy assignment `cube::operator=(const cube &other)`, that is
`*this = cube(other)`; `fuel` bounds the depth of the calls of the move assignment. -/
def cube.copy_assign (P : platform α) (fuel : Nat) (w : world α) (this other : cube α) :
    Except (world α) (cube α × world α) :=
  let r := cube.copy_ctor P w other
  match cube.move_assign P fuel r.2 this r.1 with
  | .error w1 => .error w1
  | .ok (this1, w1) => .ok (this1, cube.dtor w1 r.1)

end geo
end mk

/-- The constant `PI` of `__Deprecated_RecreateSphere`. -/
def sphere_PI {α : Type} [Field α] : α := 314159265359 / 100000000000

/-- The first pair of loops of `__Deprecated_RecreateSphere`: the contents of
`sphere_vertices`.  The counts are the integer values that the `float` parameters hold. -/
def sphere_vertices {α : Type} [Field α] (M : cmath α) (sphere_radius : α)
    (sector_count stack_count : Nat) : List α :=
  let sector_step : α := 2 * sphere_PI / sector_count
  let stack_step : α := sphere_PI / stack_count
  (List.range (stack_count + 1)).flatMap fun i =>
    let stack_angle : α := sphere_PI / 2 - i * stack_step
    let xy := sphere_radius * M.cos stack_angle
    let z := sphere_radius * M.sin stack_angle
    (List.range (sector_count + 1)).flatMap fun j =>
      let sector_angle : α := j * sector_step
      [xy * M.cos sector_angle, xy * M.sin sector_angle, z]

/-- The inner loop over `j` of the index loops, with `n` iterations left and the current
values of `k1` and `k2`, for the stack `i`. -/
def sphere_indices_row (stack_count : Nat) (i : Nat) : Nat → Int → Int → List Int
  | 0, _, _ => []
  | n + 1, k1, k2 =>
    (if (i : Int) ≠ 0 then [k1, k2, k1 + 1] else []) ++
    (if (i : Int) ≠ (stack_count : Int) - 1 then [k1 + 1, k2, k2 + 1] else []) ++
    sphere_indices_row stack_count i n (k1 + 1) (k2 + 1)

/-- The second pair of loops of `__Deprecated_RecreateSphere`: the contents of
`sphere_indices`.  `k1` and `k2` are computed from the `float` counts and converted to
`int`; on integer values below `2 ^ 24` this arithmetic is exact, and it is taken exact
here. -/
def sphere_indices (sector_count stack_count : Nat) : List Int :=
  (List.range stack_count).flatMap fun i =>
    let k1 : Int := i * (sector_count + 1)
    let k2 : Int := k1 + sector_count + 1
    sphere_indices_row stack_count i sector_count k1 k2

/-- `__Deprecated_RecreateSphere`: the vectors `sphere_vertices` and `sphere_indices` it
leaves behind.  The buffers it then creates are filled from these two vectors. -/
def __Deprecated_RecreateSphere {α : Type} [Field α] (M : cmath α) (sphere_radius : α)
    (sector_count stack_count : Nat) : List α × List Int :=
  (sphere_vertices M sphere_radius sector_count stack_count,
   sphere_indices sector_count stack_count)

/-! ## Concrete objects used to evaluate the definitions -/

namespace sample

/-- A conforming driver: one more than the largest name in use. -/
def gen_name (used : List Nat) : Nat := used.foldr max 0 + 1

/-- The state at program start with the driver `gen_name`. -/
def world0 : world ℚ := world.initial gen_name

/-- A platform with 24-byte vector objects and zeros behind every vector. -/
def platform0 : platform ℚ := { sizeof_vector := 24, stray := fun _ => 0 }

/-- A cube with identity 1 at the origin. -/
def cube1 : mk.geo.geometry ℚ :=
  .cube { m_id := 1, m_vao := 1, m_vbo := 1, m_location := ⟨⟨0, 0, 0⟩⟩,
          m_vertices := mk.geo.__cube_vertices }

/-- A triangle with identity 2 owning vertex array 2 and buffer 2. -/
def triangle2 : mk.geo.geometry ℚ :=
  .triangle { m_id := 2, m_vao := 2, m_vbo := 2, m_location := ⟨⟨10, 3, 0⟩⟩,
              m_vertices := [0, 0, 0, -1, 0, 0, 0, -1, 1] }

/-- The triangle move-constructed from `triangle2` in storage whose `m_id` held 1: it
reports identity 1 and owns vertex array 2 and buffer 2. -/
def triangle2_moved : mk.geo.geometry ℚ :=
  (mk.geo.geometry.move_ctor ⟨1, 0, 0⟩ triangle2).1

/-- The registry that holds `cube1` under key 1 and nothing else. -/
def scene1 : gl_scene ℚ := { geometries := [(1, some cube1)], m_sky_color := (0, 0, 0, 0) }

/-- A triangle with identity 1 owning vertex array 1 and buffer 1. -/
def triangle1 : mk.geo.geometry ℚ :=
  .triangle { m_id := 1, m_vao := 1, m_vbo := 1, m_location := ⟨⟨0, 0, 0⟩⟩,
              m_vertices := [0, 0, 0, 1, 0, 0, 0, 1, 1] }

/-- A state in which `triangle1` is the only geometry: the counter holds 2, vertex array 1
and buffer 1 are in use and the buffer holds the triangle's nine floats. -/
def world1 : world ℚ :=
  { __next_id := 2
    gl :=
      { gen_name := gen_name
        vertex_arrays := [1]
        buffers := [1]
        buffer_data := fun n => if n = 1 then some ⟨36, [0, 0, 0, 1, 0, 0, 0, 1, 1]⟩ else none
        vertex_array_binding := 1
        array_buffer_binding := 1
        attrib_buffer := fun n => if n = 1 then some 1 else none
        attrib_enabled := fun n => decide (n = 1) } }

/-- A cube with identity 2 owning vertex array 2 and buffer 2. -/
def cube2 : mk.geo.geometry ℚ :=
  .cube { m_id := 2, m_vao := 2, m_vbo := 2, m_location := ⟨⟨0, 0, 0⟩⟩,
          m_vertices := mk.geo.__cube_vertices }

/-- A state in which `triangle1` and `cube2` are the geometries: the counter holds 3 and
the vertex arrays and buffers 1 and 2 are in use. -/
def world2 : world ℚ :=
  { __next_id := 3
    gl :=
      { gen_name := gen_name
        vertex_arrays := [2, 1]
        buffers := [2, 1]
        buffer_data := fun n =>
          if n = 1 then some ⟨36, [0, 0, 0, 1, 0, 0, 0, 1, 1]⟩
          else if n = 2 then some ⟨432, mk.geo.__cube_vertices⟩ else none
        vertex_array_binding := 2
        array_buffer_binding := 2
        attrib_buffer := fun n => if n = 1 then some 1 else if n = 2 then some 2 else none
        attrib_enabled := fun n => decide (n = 1 ∨ n = 2) } }

end sample

/-! ## Results: the scene registry -/

section registry
variable {α : Type}

theorem std.unordered_map.find_insert_self {κ β : Type} [DecidableEq κ]
    (m : std.unordered_map κ β) (e : κ × β) :
    (std.unordered_map.find (std.unordered_map.insert m e) e.1).isSome = true := by
  unfold std.unordered_map.insert
  cases h : std.unordered_map.find m e.1 with
  | none => simp [std.unordered_map.find]
  | some v => simp [h]

end registry

section registry_results
variable {α : Type}

theorem gl_scene.add_geometry_ok (s : gl_scene α) (g : mk.geo.geometry α) :
    ∃ s1, gl_scene.add_geometry s (some g) = .ok s1 ∧
      (std.unordered_map.find s1.geometries g.get_id).isSome = true := by
  refine ⟨_, rfl, ?_⟩
  exact std.unordered_map.find_insert_self s.geometries (g.get_id, some g)

theorem gl_scene.get_geometry_of_present (s : gl_scene α) (key : Nat)
    (h : (std.unordered_map.find s.geometries key).isSome = true) :
    gl_scene.get_geometry s key = .ok none := by
  unfold gl_scene.get_geometry
  cases hf : std.unordered_map.find s.geometries key with
  | none => simp [hf] at h
  | some e => rfl

theorem gl_scene.get_geometry_of_absent (s : gl_scene α) (key : Nat)
    (h : std.unordered_map.find s.geometries key = none) :
    gl_scene.get_geometry s key = .error fault.end_iterator_dereference := by
  unfold gl_scene.get_geometry
  rw [h]

/-- C1 (evaluation of the code): in the fresh registry, and in every registry, `add_geometry(g)`
followed by `get_geometry(g.get_id())` returns `nullptr`, not `g`: the test in `get_geometry`
is inverted, so a key that is found yields `nullptr`. -/
theorem C1_get_geometry_after_add_returns_nullptr :
    (∃ s1, gl_scene.add_geometry (gl_scene.ctor : gl_scene ℚ) (some sample.cube1) = .ok s1 ∧
      gl_scene.get_geometry s1 sample.cube1.get_id = .ok none ∧
      gl_scene.get_geometry s1 sample.cube1.get_id ≠ .ok (some sample.cube1)) ∧
    (∀ (β : Type) (s : gl_scene β) (g : mk.geo.geometry β), ∃ s1,
      gl_scene.add_geometry s (some g) = .ok s1 ∧ gl_scene.get_geometry s1 g.get_id = .ok none) := by
  have general : ∀ (β : Type) (s : gl_scene β) (g : mk.geo.geometry β), ∃ s1,
      gl_scene.add_geometry s (some g) = .ok s1 ∧ gl_scene.get_geometry s1 g.get_id = .ok none := by
    intro β s g
    obtain ⟨s1, h1, h2⟩ := gl_scene.add_geometry_ok s g
    exact ⟨s1, h1, gl_scene.get_geometry_of_present s1 _ h2⟩
  refine ⟨?_, general⟩
  obtain ⟨s1, h1, h2⟩ := general ℚ gl_scene.ctor sample.cube1
  refine ⟨s1, h1, h2, ?_⟩
  rw [h2]
  intro h
  cases h

/-- C2 (evaluation of the code): `get_geometry(0)` on the fresh registry, and `get_geometry(k)`
for a key `k = 2` that was never inserted, do not return `nullptr`: `find` gives the `end()`
position and the function evaluates `match->second` there. -/
theorem C2_get_geometry_absent_dereferences_end :
    gl_scene.get_geometry (gl_scene.ctor : gl_scene ℚ) mk.geo.error_id
        = .error fault.end_iterator_dereference ∧
    gl_scene.get_geometry sample.scene1 2 = .error fault.end_iterator_dereference ∧
    (∀ (β : Type) (s : gl_scene β) (key : Nat), std.unordered_map.find s.geometries key = none →
      gl_scene.get_geometry s key = .error fault.end_iterator_dereference) := by
  refine ⟨rfl, ?_, fun β s key h => gl_scene.get_geometry_of_absent s key h⟩
  apply gl_scene.get_geometry_of_absent
  simp [sample.scene1, std.unordered_map.find]

theorem gl_scene.add_geometry_of_bound (s : gl_scene α) (k : Nat)
    (g1 g2 : mk.geo.geometry α)
    (hbound : (std.unordered_map.find s.geometries k).map Prod.snd = some (some g1))
    (hid : g2.get_id = k) :
    gl_scene.add_geometry s (some g2) = .ok s := by
  unfold gl_scene.add_geometry std.unordered_map.insert
  simp only [hid]
  cases hf : std.unordered_map.find s.geometries k with
  | none => simp [hf] at hbound
  | some e => rfl

theorem sample.scene1_binds_cube1 :
    (std.unordered_map.find sample.scene1.geometries 1).map Prod.snd = some (some sample.cube1) := by
  simp [sample.scene1, std.unordered_map.find]

/-- C3 (counterexample): the registry `scene1` binds identity 1 to `cube1`; after
`add_geometry(triangle2_moved)`, whose identity is also 1, identity 1 is still bound to
`cube1` and not to `triangle2_moved`. -/
theorem C3_counterexample :
    sample.triangle2_moved.get_id = 1 ∧
    (std.unordered_map.find sample.scene1.geometries 1).map Prod.snd = some (some sample.cube1) ∧
    ∃ s1, gl_scene.add_geometry sample.scene1 (some sample.triangle2_moved) = .ok s1 ∧
      (std.unordered_map.find s1.geometries 1).map Prod.snd = some (some sample.cube1) ∧
      (std.unordered_map.find s1.geometries 1).map Prod.snd ≠ some (some sample.triangle2_moved) := by
  refine ⟨rfl, sample.scene1_binds_cube1, sample.scene1, ?_, sample.scene1_binds_cube1, ?_⟩
  · exact gl_scene.add_geometry_of_bound sample.scene1 1 sample.cube1 sample.triangle2_moved
      sample.scene1_binds_cube1 rfl
  · rw [sample.scene1_binds_cube1]
    intro h
    have h1 : sample.cube1 = sample.triangle2_moved := Option.some.inj (Option.some.inj h)
    cases h1

/-- C3 (amended): when a registry binds identity `k` to `g1`, `add_geometry` of a geometry
`g2` whose identity is also `k` stores nothing: the registry is unchanged and `k` stays bound
to `g1` (`unordered_map::insert` keeps the first binding). -/
theorem C3_add_geometry_keeps_first_binding (s : gl_scene α) (k : Nat)
    (g1 g2 : mk.geo.geometry α)
    (hbound : (std.unordered_map.find s.geometries k).map Prod.snd = some (some g1))
    (hid : g2.get_id = k) :
    gl_scene.add_geometry s (some g2) = .ok s ∧
    ∀ s1, gl_scene.add_geometry s (some g2) = .ok s1 →
      (std.unordered_map.find s1.geometries k).map Prod.snd = some (some g1) := by
  have hs := gl_scene.add_geometry_of_bound s k g1 g2 hbound hid
  refine ⟨hs, ?_⟩
  intro s1 h1
  rw [hs] at h1
  cases h1
  exact hbound

/-- C3 (witness): the amended statement at `scene1`, `cube1` and `triangle2_moved`. -/
theorem C3_add_geometry_keeps_first_binding_witness :
    (std.unordered_map.find sample.scene1.geometries 1).map Prod.snd = some (some sample.cube1) ∧
    sample.triangle2_moved.get_id = 1 ∧
    gl_scene.add_geometry sample.scene1 (some sample.triangle2_moved) = .ok sample.scene1 ∧
    ∀ s1, gl_scene.add_geometry sample.scene1 (some sample.triangle2_moved) = .ok s1 →
      (std.unordered_map.find s1.geometries 1).map Prod.snd = some (some sample.cube1) :=
  ⟨sample.scene1_binds_cube1, rfl,
    C3_add_geometry_keeps_first_binding sample.scene1 1 sample.cube1 sample.triangle2_moved
      sample.scene1_binds_cube1 rfl⟩

end registry_results

/-! ## Results: effect of the OpenGL calls on each part of the context -/

section gl_frame
variable {α : Type}

@[simp] theorem glGenVertexArrays_fst (gl : gl_state α) :
    (glGenVertexArrays gl).1 = gl.gen_name gl.vertex_arrays := rfl

@[simp] theorem glGenVertexArrays_vertex_arrays (gl : gl_state α) :
    (glGenVertexArrays gl).2.vertex_arrays = gl.gen_name gl.vertex_arrays :: gl.vertex_arrays := rfl

@[simp] theorem glGenVertexArrays_buffers (gl : gl_state α) :
    (glGenVertexArrays gl).2.buffers = gl.buffers := rfl

@[simp] theorem glGenVertexArrays_gen_name (gl : gl_state α) :
    (glGenVertexArrays gl).2.gen_name = gl.gen_name := rfl

@[simp] theorem glGenVertexArrays_buffer_data (gl : gl_state α) :
    (glGenVertexArrays gl).2.buffer_data = gl.buffer_data := rfl

@[simp] theorem glGenBuffers_fst (gl : gl_state α) :
    (glGenBuffers gl).1 = gl.gen_name gl.buffers := rfl

@[simp] theorem glGenBuffers_buffers (gl : gl_state α) :
    (glGenBuffers gl).2.buffers = gl.gen_name gl.buffers :: gl.buffers := rfl

@[simp] theorem glGenBuffers_vertex_arrays (gl : gl_state α) :
    (glGenBuffers gl).2.vertex_arrays = gl.vertex_arrays := rfl

@[simp] theorem glGenBuffers_gen_name (gl : gl_state α) :
    (glGenBuffers gl).2.gen_name = gl.gen_name := rfl

@[simp] theorem glGenBuffers_buffer_data (gl : gl_state α) :
    (glGenBuffers gl).2.buffer_data = gl.buffer_data := rfl

@[simp] theorem glBindVertexArray_vertex_arrays (gl : gl_state α) (n : Nat) :
    (glBindVertexArray gl n).vertex_arrays = gl.vertex_arrays := by
  unfold glBindVertexArray; split <;> rfl

@[simp] theorem glBindVertexArray_buffers (gl : gl_state α) (n : Nat) :
    (glBindVertexArray gl n).buffers = gl.buffers := by
  unfold glBindVertexArray; split <;> rfl

@[simp] theorem glBindVertexArray_gen_name (gl : gl_state α) (n : Nat) :
    (glBindVertexArray gl n).gen_name = gl.gen_name := by
  unfold glBindVertexArray; split <;> rfl

@[simp] theorem glBindVertexArray_buffer_data (gl : gl_state α) (n : Nat) :
    (glBindVertexArray gl n).buffer_data = gl.buffer_data := by
  unfold glBindVertexArray; split <;> rfl

@[simp] theorem glBindBuffer_vertex_arrays (gl : gl_state α) (n : Nat) :
    (glBindBuffer gl n).vertex_arrays = gl.vertex_arrays := by
  unfold glBindBuffer; split <;> rfl

@[simp] theorem glBindBuffer_buffers (gl : gl_state α) (n : Nat) :
    (glBindBuffer gl n).buffers = gl.buffers := by
  unfold glBindBuffer; split <;> rfl

@[simp] theorem glBindBuffer_gen_name (gl : gl_state α) (n : Nat) :
    (glBindBuffer gl n).gen_name = gl.gen_name := by
  unfold glBindBuffer; split <;> rfl

@[simp] theorem glBindBuffer_buffer_data (gl : gl_state α) (n : Nat) :
    (glBindBuffer gl n).buffer_data = gl.buffer_data := by
  unfold glBindBuffer; split <;> rfl

theorem glBindBuffer_binding_of_mem (gl : gl_state α) (n : Nat) (h : n ∈ gl.buffers) :
    (glBindBuffer gl n).array_buffer_binding = n := by
  unfold glBindBuffer
  rw [if_pos (Or.inr h)]

theorem glBindBuffer_binding (gl : gl_state α) (n : Nat) :
    (glBindBuffer gl n).array_buffer_binding = n ∨
      (glBindBuffer gl n).array_buffer_binding = gl.array_buffer_binding := by
  unfold glBindBuffer
  split
  · exact Or.inl rfl
  · exact Or.inr rfl

@[simp] theorem glBufferData_vertex_arrays (gl : gl_state α) (size : Nat) (fl : List α) :
    (glBufferData gl size fl).vertex_arrays = gl.vertex_arrays := by
  unfold glBufferData; split <;> rfl

@[simp] theorem glBufferData_buffers (gl : gl_state α) (size : Nat) (fl : List α) :
    (glBufferData gl size fl).buffers = gl.buffers := by
  unfold glBufferData; split <;> rfl

@[simp] theorem glBufferData_gen_name (gl : gl_state α) (size : Nat) (fl : List α) :
    (glBufferData gl size fl).gen_name = gl.gen_name := by
  unfold glBufferData; split <;> rfl

theorem glBufferData_buffer_data_of_ne (gl : gl_state α) (size : Nat) (fl : List α) (n : Nat)
    (h : n ≠ gl.array_buffer_binding) :
    (glBufferData gl size fl).buffer_data n = gl.buffer_data n := by
  unfold glBufferData
  split
  · rfl
  · simp [h]

theorem glBufferData_buffer_data_bound (gl : gl_state α) (size : Nat) (fl : List α)
    (h : gl.array_buffer_binding ≠ 0) :
    (glBufferData gl size fl).buffer_data gl.array_buffer_binding = some ⟨size, fl⟩ := by
  unfold glBufferData
  simp [h]

@[simp] theorem glVertexAttribPointer_vertex_arrays (gl : gl_state α) :
    (glVertexAttribPointer gl).vertex_arrays = gl.vertex_arrays := by
  unfold glVertexAttribPointer; split <;> rfl

@[simp] theorem glVertexAttribPointer_buffers (gl : gl_state α) :
    (glVertexAttribPointer gl).buffers = gl.buffers := by
  unfold glVertexAttribPointer; split <;> rfl

@[simp] theorem glVertexAttribPointer_gen_name (gl : gl_state α) :
    (glVertexAttribPointer gl).gen_name = gl.gen_name := by
  unfold glVertexAttribPointer; split <;> rfl

@[simp] theorem glVertexAttribPointer_buffer_data (gl : gl_state α) :
    (glVertexAttribPointer gl).buffer_data = gl.buffer_data := by
  unfold glVertexAttribPointer; split <;> rfl

@[simp] theorem glEnableVertexAttribArray_vertex_arrays (gl : gl_state α) :
    (glEnableVertexAttribArray gl).vertex_arrays = gl.vertex_arrays := by
  unfold glEnableVertexAttribArray; split <;> rfl

@[simp] theorem glEnableVertexAttribArray_buffers (gl : gl_state α) :
    (glEnableVertexAttribArray gl).buffers = gl.buffers := by
  unfold glEnableVertexAttribArray; split <;> rfl

@[simp] theorem glEnableVertexAttribArray_gen_name (gl : gl_state α) :
    (glEnableVertexAttribArray gl).gen_name = gl.gen_name := by
  unfold glEnableVertexAttribArray; split <;> rfl

@[simp] theorem glEnableVertexAttribArray_buffer_data (gl : gl_state α) :
    (glEnableVertexAttribArray gl).buffer_data = gl.buffer_data := by
  unfold glEnableVertexAttribArray; split <;> rfl

end gl_frame

/-! ## Results: the identity counter -/

section identity
variable {α : Type} [Field α]

open mk.geo

theorem mk.geo.create_next_id (w : world α) (k : creation α) :
    (create w k).2.__next_id = (w.__next_id + 1) % 2 ^ 64 := by
  cases k <;> rfl

theorem mk.geo.create_get_id (w : world α) (k : creation α) :
    (create w k).1.get_id = if k.is_triangle then w.__next_id % 2 ^ 32 else w.__next_id := by
  cases k <;> rfl

theorem mk.geo.create_all_next_id (w : world α) (ks : List (creation α)) :
    (create_all w ks).2.__next_id = (w.__next_id + ks.length) % 2 ^ 64 ∨
      (ks = [] ∧ (create_all w ks).2.__next_id = w.__next_id) := by
  induction ks generalizing w with
  | nil => exact Or.inr ⟨rfl, rfl⟩
  | cons k ks ih =>
    left
    show (create_all (create w k).2 ks).2.__next_id = _
    rcases ih (create w k).2 with h | ⟨rfl, h⟩
    · rw [h, create_next_id, List.length_cons]
      omega
    · rw [h, create_next_id]
      rfl

theorem mk.geo.create_all_cons_head (w : world α) (k : creation α) (ks : List (creation α)) :
    (create_all w (k :: ks)).1.head? = some (create w k).1 := rfl

theorem mk.geo.create_all_append (w : world α) (ks ls : List (creation α)) :
    (create_all w (ks ++ ls)).1 = (create_all w ks).1 ++ (create_all (create_all w ks).2 ls).1 := by
  induction ks generalizing w with
  | nil => rfl
  | cons k ks ih =>
    show (create w k).1 :: (create_all (create w k).2 (ks ++ ls)).1 = _
    rw [ih]
    rfl

theorem mk.geo.create_all_ids (w : world α) (ks : List (creation α))
    (h64 : w.__next_id + ks.length ≤ 2 ^ 64)
    (h32 : ∀ (i : Nat) (h : i < ks.length),
      (ks.get ⟨i, h⟩).is_triangle = true → w.__next_id + i < 2 ^ 32) :
    (create_all w ks).1.map geometry.get_id = List.range' w.__next_id ks.length := by
  induction ks generalizing w with
  | nil => rfl
  | cons k ks ih =>
    have hhead : (create w k).1.get_id = w.__next_id := by
      rw [create_get_id]
      split
      · next hk =>
        have := h32 0 (by simp) (by simpa using hk)
        exact Nat.mod_eq_of_lt (by omega)
      · rfl
    show (create w k).1.get_id :: (create_all (create w k).2 ks).1.map geometry.get_id = _
    rw [hhead, List.length_cons, List.range'_succ]
    congr 1
    by_cases hks : ks = []
    · subst hks
      rfl
    · have hpos : 0 < ks.length := List.length_pos.mpr hks
      rw [List.length_cons] at h64
      have hc : (create w k).2.__next_id = w.__next_id + 1 := by
        rw [create_next_id]
        exact Nat.mod_eq_of_lt (by omega)
      rw [ih (create w k).2 (by omega), hc]
      intro i hi htri
      rw [hc]
      have := h32 (i + 1) (by simp; omega) (by simpa using htri)
      omega

theorem mk.geo.create_all_last_id (w : world α) (ks : List (creation α)) (k : creation α)
    (hks : ks ≠ []) :
    ((create_all w (ks ++ [k])).1.map geometry.get_id).getLast? =
      some (if k.is_triangle then (w.__next_id + ks.length) % 2 ^ 64 % 2 ^ 32
        else (w.__next_id + ks.length) % 2 ^ 64) := by
  have hc : (create_all w ks).2.__next_id = (w.__next_id + ks.length) % 2 ^ 64 := by
    rcases create_all_next_id w ks with h | ⟨h, _⟩
    · exact h
    · exact absurd h hks
  have hone : (create_all (create_all w ks).2 [k]).1 = [(create (create_all w ks).2 k).1] := rfl
  rw [create_all_append, hone, List.map_append, List.map_singleton, List.getLast?_append,
    List.getLast?_singleton]
  show some (create (create_all w ks).2 k).1.get_id = _
  rw [create_get_id, hc]

theorem mk.geo.geometry.copy_ctor_get_id_of_create_triangle (P : platform α)
    (w w0 : world α) (v : Fin 9 → α) :
    (geometry.copy_ctor P w (create w0 (creation.create_triangle v)).1).1.get_id
      = w.__next_id % 2 ^ 32 := rfl

theorem mk.geo.geometry.copy_ctor_get_id_of_create_cube (P : platform α)
    (w w0 : world α) :
    (geometry.copy_ctor P w (create w0 creation.create_cube).1).1.get_id = w.__next_id := rfl

end identity

section identity_results

open mk.geo

/-- C4 (counterexample): from program start, the triangle created after `2^32 - 1` cubes
reports identity 0, the sentinel `error_id` (`triangle::m_id` is a 32-bit `GLuint`), and
the cube created after `2^64 - 1` cubes reports identity 0 as well (the counter wraps). -/
theorem C4_counterexample :
    ((create_all sample.world0
        (List.replicate (2 ^ 32 - 1) creation.create_cube ++
          [creation.create_triangle (fun _ => 0)])).1.map geometry.get_id).getLast?
      = some error_id ∧
    ((create_all sample.world0
        (List.replicate (2 ^ 64 - 1) creation.create_cube ++
          [creation.create_cube])).1.map geometry.get_id).getLast?
      = some error_id := by
  constructor
  · rw [create_all_last_id _ _ _ (by
      intro h
      have := congrArg List.length h
      rw [List.length_replicate] at this
      exact absurd this (by decide))]
    rw [List.length_replicate]
    rfl
  · rw [create_all_last_id _ _ _ (by
      intro h
      have := congrArg List.length h
      rw [List.length_replicate] at this
      exact absurd this (by decide))]
    rw [List.length_replicate]
    rfl

/-- C4 (amended): `next_id` returns 1 on its first call and, while the counter is below
`2^64 - 1`, the previous value plus one on the next call; any `N` geometries created in
sequence from a state whose counter `c` is at least 1, with `c + N ≤ 2^64` and every
triangle among them created while the counter is below `2^32`, report the identities
`c, c + 1, ..., c + N - 1`: strictly increasing, pairwise distinct, none equal to
`error_id = 0`. -/
theorem C4_identities_strictly_increasing {α : Type} [Field α] (w : world α)
    (ks : List (creation α))
    (h1 : 1 ≤ w.__next_id)
    (h64 : w.__next_id + ks.length ≤ 2 ^ 64)
    (h32 : ∀ (i : Nat) (h : i < ks.length),
      (ks.get ⟨i, h⟩).is_triangle = true → w.__next_id + i < 2 ^ 32) :
    (∀ gen_name : List Nat → Nat, (next_id (world.initial gen_name : world α)).1 = 1) ∧
    (w.__next_id + 1 < 2 ^ 64 → (next_id (next_id w).2).1 = (next_id w).1 + 1) ∧
    (create_all w ks).1.map geometry.get_id = List.range' w.__next_id ks.length ∧
    ((create_all w ks).1.map geometry.get_id).Pairwise (fun a b => a < b) ∧
    ((create_all w ks).1.map geometry.get_id).Nodup ∧
    error_id ∉ (create_all w ks).1.map geometry.get_id := by
  have hids := create_all_ids w ks h64 h32
  refine ⟨fun _ => rfl, ?_, hids, ?_, ?_, ?_⟩
  · intro h
    show (w.__next_id + 1) % 2 ^ 64 = w.__next_id + 1
    exact Nat.mod_eq_of_lt h
  · rw [hids]
    exact List.pairwise_lt_range' _ _
  · rw [hids]
    exact List.nodup_range' _ _
  · rw [hids, List.mem_range']
    rintro ⟨i, _, hi⟩
    simp only [error_id] at hi
    omega

/-- C4 (witness): a cube, a triangle and a cube created at program start report the
identities 1, 2, 3. -/
theorem C4_identities_strictly_increasing_witness :
    1 ≤ sample.world0.__next_id ∧
    (create_all sample.world0
      [creation.create_cube, creation.create_triangle (fun _ => 0), creation.create_cube]).1.map
        geometry.get_id = [1, 2, 3] ∧
    error_id ∉ (create_all sample.world0
      [creation.create_cube, creation.create_triangle (fun _ => 0), creation.create_cube]).1.map
        geometry.get_id :=
  have h := C4_identities_strictly_increasing sample.world0
    [creation.create_cube, creation.create_triangle (fun _ => 0), creation.create_cube]
    (by decide) (by decide)
    (fun i hi _ => by
      have h3 : i < 3 := hi
      have h1 : sample.world0.__next_id = 1 := rfl
      omega)
  ⟨by decide, h.2.2.1, h.2.2.2.2.2⟩

end identity_results

/-! ## Results: duplication -/

section duplication
variable {α : Type}

open mk.geo

theorem mk.geo.triangle.build_m_vao (w : world α) (l : mk.location α) (v : List α) :
    (triangle.build w l v).1.m_vao = w.gl.gen_name w.gl.vertex_arrays := rfl

theorem mk.geo.triangle.build_m_vbo (w : world α) (l : mk.location α) (v : List α) :
    (triangle.build w l v).1.m_vbo = w.gl.gen_name w.gl.buffers := by
  simp [triangle.build]

theorem mk.geo.triangle.build_vertex_arrays (w : world α) (l : mk.location α) (v : List α) :
    (triangle.build w l v).2.gl.vertex_arrays
      = w.gl.gen_name w.gl.vertex_arrays :: w.gl.vertex_arrays := by
  simp [triangle.build, next_id]

theorem mk.geo.triangle.build_buffers (w : world α) (l : mk.location α) (v : List α) :
    (triangle.build w l v).2.gl.buffers = w.gl.gen_name w.gl.buffers :: w.gl.buffers := by
  simp [triangle.build, next_id]

theorem mk.geo.triangle.build_gen_name (w : world α) (l : mk.location α) (v : List α) :
    (triangle.build w l v).2.gl.gen_name = w.gl.gen_name := by
  simp [triangle.build, next_id]

theorem mk.geo.triangle.build_buffer_data_of_ne (w : world α) (l : mk.location α) (v : List α)
    (n : Nat) (h : n ≠ w.gl.gen_name w.gl.buffers) :
    (triangle.build w l v).2.gl.buffer_data n = w.gl.buffer_data n := by
  simp only [triangle.build, next_id, glEnableVertexAttribArray_buffer_data,
    glVertexAttribPointer_buffer_data]
  rw [glBufferData_buffer_data_of_ne]
  · simp
  · rw [glBindBuffer_binding_of_mem]
    · simpa using h
    · simp

theorem mk.geo.cube_copy_ctor_m_vbo (P : platform α) (w : world α) (c : cube α) :
    (cube.copy_ctor P w c).1.m_vbo = w.gl.gen_name w.gl.buffers := by
  simp [cube.copy_ctor, next_id]

theorem mk.geo.cube_copy_ctor_vertex_arrays (P : platform α) (w : world α) (c : cube α) :
    (cube.copy_ctor P w c).2.gl.vertex_arrays
      = w.gl.gen_name w.gl.vertex_arrays :: w.gl.vertex_arrays := by
  simp [cube.copy_ctor, next_id]

theorem mk.geo.cube_copy_ctor_buffers (P : platform α) (w : world α) (c : cube α) :
    (cube.copy_ctor P w c).2.gl.buffers = w.gl.gen_name w.gl.buffers :: w.gl.buffers := by
  simp [cube.copy_ctor, next_id]

theorem mk.geo.cube_copy_ctor_gen_name (P : platform α) (w : world α) (c : cube α) :
    (cube.copy_ctor P w c).2.gl.gen_name = w.gl.gen_name := by
  simp [cube.copy_ctor, next_id]

theorem mk.geo.cube_copy_ctor_buffer_data_of_ne (P : platform α) (w : world α) (c : cube α)
    (n : Nat) (h : n ≠ w.gl.gen_name w.gl.buffers) :
    (cube.copy_ctor P w c).2.gl.buffer_data n = w.gl.buffer_data n := by
  simp only [cube.copy_ctor, next_id, glEnableVertexAttribArray_buffer_data,
    glVertexAttribPointer_buffer_data]
  rw [glBufferData_buffer_data_of_ne]
  · simp
  · rw [glBindBuffer_binding_of_mem]
    · simpa using h
    · simp

theorem mk.geo.geometry.set_vertices_get_vbo (P : platform α) (w : world α) (g : geometry α)
    (v : List α) : (geometry.set_vertices P w g v).1.get_vbo = g.get_vbo := by
  cases g <;> rfl

theorem mk.geo.geometry.set_vertices_get_vao (P : platform α) (w : world α) (g : geometry α)
    (v : List α) : (geometry.set_vertices P w g v).1.get_vao = g.get_vao := by
  cases g <;> rfl

theorem mk.geo.geometry.set_vertices_get_id (P : platform α) (w : world α) (g : geometry α)
    (v : List α) : (geometry.set_vertices P w g v).1.get_id = g.get_id := by
  cases g <;> rfl

theorem mk.geo.geometry.set_vertices_get_vertices (P : platform α) (w : world α)
    (g : geometry α) (v : List α) : (geometry.set_vertices P w g v).1.get_vertices = v := by
  cases g <;> rfl

theorem mk.geo.geometry.set_vertices_buffers (P : platform α) (w : world α) (g : geometry α)
    (v : List α) : (geometry.set_vertices P w g v).2.gl.buffers = w.gl.buffers := by
  cases g <;> simp [geometry.set_vertices, triangle.set_vertices, cube.set_vertices]

theorem mk.geo.geometry.set_vertices_vertex_arrays (P : platform α) (w : world α)
    (g : geometry α) (v : List α) :
    (geometry.set_vertices P w g v).2.gl.vertex_arrays = w.gl.vertex_arrays := by
  cases g <;> simp [geometry.set_vertices, triangle.set_vertices, cube.set_vertices]

theorem mk.geo.geometry.set_vertices_next_id (P : platform α) (w : world α) (g : geometry α)
    (v : List α) : (geometry.set_vertices P w g v).2.__next_id = w.__next_id := by
  cases g <;> rfl

theorem mk.geo.geometry.set_vertices_buffer_data_of_ne (P : platform α) (w : world α)
    (g : geometry α) (v : List α) (n : Nat) (hg : g.get_vbo ∈ w.gl.buffers)
    (hn : n ≠ g.get_vbo) :
    (geometry.set_vertices P w g v).2.gl.buffer_data n = w.gl.buffer_data n := by
  cases g with
  | triangle t =>
    have hg1 : t.m_vbo ∈ w.gl.buffers := hg
    have hn1 : n ≠ t.m_vbo := hn
    show (glBufferData (glBindBuffer w.gl t.m_vbo) _ _).buffer_data n = _
    rw [glBufferData_buffer_data_of_ne, glBindBuffer_buffer_data]
    rw [glBindBuffer_binding_of_mem _ _ hg1]
    exact hn1
  | cube c =>
    have hg1 : c.m_vbo ∈ w.gl.buffers := hg
    have hn1 : n ≠ c.m_vbo := hn
    show (glBufferData (glBindBuffer w.gl c.m_vbo) _ _).buffer_data n = _
    rw [glBufferData_buffer_data_of_ne, glBindBuffer_buffer_data]
    rw [glBindBuffer_binding_of_mem _ _ hg1]
    exact hn1

theorem mk.geo.geometry.set_vertices_buffer_data_own (P : platform α) (w : world α)
    (g : geometry α) (v : List α) (hg : g.get_vbo ∈ w.gl.buffers) (h0 : g.get_vbo ≠ 0) :
    ∃ store, (geometry.set_vertices P w g v).2.gl.buffer_data g.get_vbo = some store := by
  cases g with
  | triangle t =>
    have hg1 : t.m_vbo ∈ w.gl.buffers := hg
    have h01 : t.m_vbo ≠ 0 := h0
    have hb := glBindBuffer_binding_of_mem w.gl t.m_vbo hg1
    have := glBufferData_buffer_data_bound (glBindBuffer w.gl t.m_vbo) P.sizeof_vector
      (read_floats P v (P.sizeof_vector / 4)) (by rw [hb]; exact h01)
    rw [hb] at this
    exact ⟨_, this⟩
  | cube c =>
    have hg1 : c.m_vbo ∈ w.gl.buffers := hg
    have h01 : c.m_vbo ≠ 0 := h0
    have hb := glBindBuffer_binding_of_mem w.gl c.m_vbo hg1
    have := glBufferData_buffer_data_bound (glBindBuffer w.gl c.m_vbo) (108 * 4)
      (read_floats P v 108) (by rw [hb]; exact h01)
    rw [hb] at this
    exact ⟨_, this⟩

variable [Zero α]

theorem mk.geo.geometry.copy_ctor_get_vertices (P : platform α) (w : world α) (g : geometry α) :
    (geometry.copy_ctor P w g).1.get_vertices = g.get_vertices := by
  cases g <;> rfl

theorem mk.geo.geometry.copy_ctor_get_vao (P : platform α) (w : world α) (g : geometry α) :
    (geometry.copy_ctor P w g).1.get_vao = w.gl.gen_name w.gl.vertex_arrays := by
  cases g <;> rfl

theorem mk.geo.geometry.copy_ctor_get_vbo (P : platform α) (w : world α) (g : geometry α) :
    (geometry.copy_ctor P w g).1.get_vbo = w.gl.gen_name w.gl.buffers := by
  cases g with
  | triangle t => exact triangle.build_m_vbo w mk.location.default t.m_vertices
  | cube c => exact cube_copy_ctor_m_vbo P w c

theorem mk.geo.geometry.copy_ctor_get_id (P : platform α) (w : world α) (g : geometry α) :
    (geometry.copy_ctor P w g).1.get_id =
      match g with
      | .triangle _ => w.__next_id % 2 ^ 32
      | .cube _ => w.__next_id := by
  cases g <;> rfl

theorem mk.geo.geometry.copy_ctor_vertex_arrays (P : platform α) (w : world α) (g : geometry α) :
    (geometry.copy_ctor P w g).2.gl.vertex_arrays
      = w.gl.gen_name w.gl.vertex_arrays :: w.gl.vertex_arrays := by
  cases g with
  | triangle t => exact triangle.build_vertex_arrays w mk.location.default t.m_vertices
  | cube c => exact cube_copy_ctor_vertex_arrays P w c

theorem mk.geo.geometry.copy_ctor_buffers (P : platform α) (w : world α) (g : geometry α) :
    (geometry.copy_ctor P w g).2.gl.buffers = w.gl.gen_name w.gl.buffers :: w.gl.buffers := by
  cases g with
  | triangle t => exact triangle.build_buffers w mk.location.default t.m_vertices
  | cube c => exact cube_copy_ctor_buffers P w c

theorem mk.geo.geometry.copy_ctor_buffer_data_of_ne (P : platform α) (w : world α)
    (g : geometry α) (n : Nat) (h : n ≠ w.gl.gen_name w.gl.buffers) :
    (geometry.copy_ctor P w g).2.gl.buffer_data n = w.gl.buffer_data n := by
  cases g with
  | triangle t => exact triangle.build_buffer_data_of_ne w mk.location.default t.m_vertices n h
  | cube c => exact cube_copy_ctor_buffer_data_of_ne P w c n h

theorem sample.le_foldr_max (used : List Nat) (n : Nat) (h : n ∈ used) :
    n ≤ used.foldr max 0 := by
  induction used with
  | nil => cases h
  | cons a l ih =>
    rw [List.foldr_cons]
    rcases List.mem_cons.mp h with rfl | h
    · exact le_max_left _ _
    · exact le_trans (ih h) (le_max_right _ _)

theorem sample.gen_name_fresh (used : List Nat) :
    sample.gen_name used ∉ used ∧ sample.gen_name used ≠ 0 := by
  constructor
  · intro h
    have := sample.le_foldr_max used _ h
    unfold sample.gen_name at this
    omega
  · unfold sample.gen_name
    omega

theorem sample.world1_conforming : sample.world1.gl.conforming :=
  fun used => sample.gen_name_fresh used

end duplication

section duplication_results

open mk.geo

/-- C5 (counterexample): from program start, create a triangle `g` (identity 1) and then
`2^32 - 1` cubes; the duplicate of `g` reports identity 1, the identity of `g`
(`triangle::m_id` is a 32-bit `GLuint`).  Likewise for the cube created first and
duplicated after `2^64 - 1` further cubes (the counter wraps). -/
theorem C5_counterexample :
    ((create_all sample.world0
        (creation.create_triangle (fun _ => 0) ::
          List.replicate (2 ^ 32 - 1) creation.create_cube)).1.head?
      = some (create sample.world0 (creation.create_triangle (fun _ => 0))).1 ∧
    (geometry.copy_ctor sample.platform0
        (create_all sample.world0
          (creation.create_triangle (fun _ => 0) ::
            List.replicate (2 ^ 32 - 1) creation.create_cube)).2
        (create sample.world0 (creation.create_triangle (fun _ => 0))).1).1.get_id
      = (create sample.world0 (creation.create_triangle (fun _ => 0))).1.get_id) ∧
    ((create_all sample.world0
        (creation.create_cube :: List.replicate (2 ^ 64 - 1) creation.create_cube)).1.head?
      = some (create sample.world0 creation.create_cube).1 ∧
    (geometry.copy_ctor sample.platform0
        (create_all sample.world0
          (creation.create_cube :: List.replicate (2 ^ 64 - 1) creation.create_cube)).2
        (create sample.world0 creation.create_cube).1).1.get_id
      = (create sample.world0 creation.create_cube).1.get_id) := by
  refine ⟨⟨create_all_cons_head _ _ _, ?_⟩, ⟨create_all_cons_head _ _ _, ?_⟩⟩
  · rw [geometry.copy_ctor_get_id_of_create_triangle, create_get_id]
    rcases create_all_next_id sample.world0
      (creation.create_triangle (fun _ => 0) ::
        List.replicate (2 ^ 32 - 1) creation.create_cube) with h | ⟨h, _⟩
    · rw [List.length_cons, List.length_replicate] at h
      rw [h]
      rfl
    · cases h
  · rw [geometry.copy_ctor_get_id_of_create_cube, create_get_id]
    rcases create_all_next_id sample.world0
      (creation.create_cube :: List.replicate (2 ^ 64 - 1) creation.create_cube) with h | ⟨h, _⟩
    · rw [List.length_cons, List.length_replicate] at h
      rw [h]
      rfl
    · cases h

/-- C5 (amended): let `g` be a triangle or cube whose handles are names in use in the
context of a conforming driver and whose identity is below the counter (it was drawn
earlier and the counter has not wrapped), the counter being below `2^32` when `g` is a
triangle.  Then the duplicate of `g` holds vertex data equal to that of `g`, a vertex-array
and vertex-buffer handle pair that was not in use before, is in use afterwards and differs
from the pair of `g`, and the identity read from the counter, which differs from that of `g`. -/
theorem C5_duplicate_is_distinct {α : Type} [Zero α] (P : platform α) (w : world α)
    (g : geometry α)
    (hgl : w.gl.conforming)
    (hvao : g.get_vao ∈ w.gl.vertex_arrays)
    (hvbo : g.get_vbo ∈ w.gl.buffers)
    (hid : g.get_id < w.__next_id)
    (h32 : ∀ t, g = geometry.triangle t → w.__next_id < 2 ^ 32) :
    (geometry.copy_ctor P w g).1.get_vertices = g.get_vertices ∧
    (geometry.copy_ctor P w g).1.get_vao ∉ w.gl.vertex_arrays ∧
    (geometry.copy_ctor P w g).1.get_vbo ∉ w.gl.buffers ∧
    (geometry.copy_ctor P w g).1.get_vao ≠ 0 ∧
    (geometry.copy_ctor P w g).1.get_vbo ≠ 0 ∧
    (geometry.copy_ctor P w g).1.get_vao ∈ (geometry.copy_ctor P w g).2.gl.vertex_arrays ∧
    (geometry.copy_ctor P w g).1.get_vbo ∈ (geometry.copy_ctor P w g).2.gl.buffers ∧
    (geometry.copy_ctor P w g).1.get_vao ≠ g.get_vao ∧
    (geometry.copy_ctor P w g).1.get_vbo ≠ g.get_vbo ∧
    (geometry.copy_ctor P w g).1.get_id = w.__next_id ∧
    (geometry.copy_ctor P w g).1.get_id ≠ g.get_id := by
  have hid' : (geometry.copy_ctor P w g).1.get_id = w.__next_id := by
    rw [geometry.copy_ctor_get_id]
    cases g with
    | triangle t => exact Nat.mod_eq_of_lt (h32 t rfl)
    | cube c => rfl
  rw [hid', geometry.copy_ctor_get_vao, geometry.copy_ctor_get_vbo, geometry.copy_ctor_get_vertices,
    geometry.copy_ctor_vertex_arrays, geometry.copy_ctor_buffers]
  refine ⟨rfl, (hgl _).1, (hgl _).1, (hgl _).2, (hgl _).2, List.mem_cons_self _ _,
    List.mem_cons_self _ _, ?_, ?_, rfl, ?_⟩
  · intro h
    exact (hgl _).1 (h ▸ hvao)
  · intro h
    exact (hgl _).1 (h ▸ hvbo)
  · omega

/-- C5 (witness): the amended statement at `world1` and `triangle1`: the duplicate takes
vertex array 2, buffer 2 and identity 2. -/
theorem C5_duplicate_is_distinct_witness :
    sample.world1.gl.conforming ∧
    sample.triangle1.get_vao ∈ sample.world1.gl.vertex_arrays ∧
    sample.triangle1.get_vbo ∈ sample.world1.gl.buffers ∧
    sample.triangle1.get_id < sample.world1.__next_id ∧
    (geometry.copy_ctor sample.platform0 sample.world1 sample.triangle1).1.get_vao
      ≠ sample.triangle1.get_vao ∧
    (geometry.copy_ctor sample.platform0 sample.world1 sample.triangle1).1.get_vbo
      ≠ sample.triangle1.get_vbo ∧
    (geometry.copy_ctor sample.platform0 sample.world1 sample.triangle1).1.get_id = 2 ∧
    (geometry.copy_ctor sample.platform0 sample.world1 sample.triangle1).1.get_id
      ≠ sample.triangle1.get_id :=
  have h := C5_duplicate_is_distinct sample.platform0 sample.world1 sample.triangle1
    sample.world1_conforming (by decide) (by decide) (by decide) (fun _ _ => by decide)
  ⟨sample.world1_conforming, by decide, by decide, by decide,
    h.2.2.2.2.2.2.2.1, h.2.2.2.2.2.2.2.2.1, h.2.2.2.2.2.2.2.2.2.1, h.2.2.2.2.2.2.2.2.2.2⟩

/-- C6: let `g` be a triangle or cube whose handles are names in use in the context of a
conforming driver, `c` its duplicate, and `v` any data.  After `c.set_vertices(v)` the data
store of the buffer of `g` is what it was before the duplication, the handles of `g` still
name objects in use, the buffer written is that of `c`, which is not the buffer of `g`, and
every other buffer keeps its contents.  The members of `g` (vertex data, identity, handles)
are not touched: `set_vertices` assigns to the members of `c` only, and `c` owns its own
copy of the vertex data. -/
theorem C6_set_vertices_on_duplicate_leaves_original {α : Type} [Zero α] (P : platform α)
    (w : world α) (g : geometry α) (v : List α)
    (hgl : w.gl.conforming)
    (hvao : g.get_vao ∈ w.gl.vertex_arrays)
    (hvbo : g.get_vbo ∈ w.gl.buffers) :
    (geometry.set_vertices P (geometry.copy_ctor P w g).2 (geometry.copy_ctor P w g).1 v).2.gl.buffer_data
        g.get_vbo = w.gl.buffer_data g.get_vbo ∧
    g.get_vbo ∈
      (geometry.set_vertices P (geometry.copy_ctor P w g).2 (geometry.copy_ctor P w g).1 v).2.gl.buffers ∧
    g.get_vao ∈
      (geometry.set_vertices P (geometry.copy_ctor P w g).2 (geometry.copy_ctor P w g).1 v).2.gl.vertex_arrays ∧
    (geometry.set_vertices P (geometry.copy_ctor P w g).2 (geometry.copy_ctor P w g).1 v).1.get_vbo
      = (geometry.copy_ctor P w g).1.get_vbo ∧
    (geometry.copy_ctor P w g).1.get_vbo ≠ g.get_vbo ∧
    (∃ store,
      (geometry.set_vertices P (geometry.copy_ctor P w g).2 (geometry.copy_ctor P w g).1 v).2.gl.buffer_data
        (geometry.copy_ctor P w g).1.get_vbo = some store) ∧
    (∀ n, n ≠ (geometry.copy_ctor P w g).1.get_vbo →
      (geometry.set_vertices P (geometry.copy_ctor P w g).2 (geometry.copy_ctor P w g).1 v).2.gl.buffer_data n
        = (geometry.copy_ctor P w g).2.gl.buffer_data n) ∧
    (geometry.set_vertices P (geometry.copy_ctor P w g).2 (geometry.copy_ctor P w g).1 v).1.get_vertices
      = v := by
  have hc_live : (geometry.copy_ctor P w g).1.get_vbo ∈ (geometry.copy_ctor P w g).2.gl.buffers := by
    rw [geometry.copy_ctor_get_vbo, geometry.copy_ctor_buffers]
    exact List.mem_cons_self _ _
  have hne : g.get_vbo ≠ (geometry.copy_ctor P w g).1.get_vbo := by
    rw [geometry.copy_ctor_get_vbo]
    intro h
    exact (hgl _).1 (h ▸ hvbo)
  have h0 : (geometry.copy_ctor P w g).1.get_vbo ≠ 0 := by
    rw [geometry.copy_ctor_get_vbo]
    exact (hgl _).2
  refine ⟨?_, ?_, ?_, geometry.set_vertices_get_vbo _ _ _ _, fun h => hne h.symm,
    geometry.set_vertices_buffer_data_own _ _ _ _ hc_live h0,
    fun n hn => geometry.set_vertices_buffer_data_of_ne _ _ _ _ n hc_live hn,
    geometry.set_vertices_get_vertices _ _ _ _⟩
  · rw [geometry.set_vertices_buffer_data_of_ne _ _ _ _ _ hc_live hne]
    apply geometry.copy_ctor_buffer_data_of_ne
    rw [← geometry.copy_ctor_get_vbo P w g]
    exact hne
  · rw [geometry.set_vertices_buffers, geometry.copy_ctor_buffers]
    exact List.mem_cons_of_mem _ hvbo
  · rw [geometry.set_vertices_vertex_arrays, geometry.copy_ctor_vertex_arrays]
    exact List.mem_cons_of_mem _ hvao

/-- C6 (witness): the statement at `world1`, `triangle1` and the empty vertex sequence:
buffer 1 still holds the nine floats of `triangle1`. -/
theorem C6_set_vertices_on_duplicate_leaves_original_witness :
    sample.world1.gl.conforming ∧
    sample.triangle1.get_vao ∈ sample.world1.gl.vertex_arrays ∧
    sample.triangle1.get_vbo ∈ sample.world1.gl.buffers ∧
    (geometry.set_vertices sample.platform0
        (geometry.copy_ctor sample.platform0 sample.world1 sample.triangle1).2
        (geometry.copy_ctor sample.platform0 sample.world1 sample.triangle1).1 []).2.gl.buffer_data
      sample.triangle1.get_vbo = sample.world1.gl.buffer_data sample.triangle1.get_vbo :=
  ⟨sample.world1_conforming, by decide, by decide,
    (C6_set_vertices_on_duplicate_leaves_original sample.platform0 sample.world1 sample.triangle1 []
      sample.world1_conforming (by decide) (by decide)).1⟩

end duplication_results

/-! ## Results: transfer of ownership -/

section transfer_results

open mk.geo

/-- C7 (evaluation of the code): after `triangle B(std::move(A))` with `A = triangle1`
(identity 1), `B` reports the value its uninitialised `m_id` held (here 7), not the
identity of `A`: the move constructor of `triangle` swaps `m_vao`, `m_vbo`, `m_location`
and `m_vertices` but not `m_id`.  The handles, transform and vertex data do arrive in `B`,
and the move constructor of `cube` hands over all five members. -/
theorem C7_triangle_move_does_not_transfer_identity :
    (geometry.move_ctor ⟨7, 0, 0⟩ sample.triangle1).1.get_id = 7 ∧
    sample.triangle1.get_id = 1 ∧
    (∀ (β : Type) [Zero β] (junk : indeterminate) (t : triangle β),
      (triangle.move_ctor junk t).1.m_id = junk.m_id ∧
      (triangle.move_ctor junk t).1.m_vao = t.m_vao ∧
      (triangle.move_ctor junk t).1.m_vbo = t.m_vbo ∧
      (triangle.move_ctor junk t).1.m_location = t.m_location ∧
      (triangle.move_ctor junk t).1.m_vertices = t.m_vertices) ∧
    (∀ (β : Type) [Zero β] (junk : indeterminate) (c : cube β),
      (cube.move_ctor junk c).1 = c) := by
  refine ⟨rfl, rfl, ?_, ?_⟩
  · intro β _ junk t
    exact ⟨rfl, rfl, rfl, rfl, rfl⟩
  · intro β _ junk c
    rfl

/-- C8 (evaluation of the code): after a transfer the source holds the values that the
uninitialised `m_vao` and `m_vbo` of the destination held, not zero.  In `world2`, moving
`cube2` into storage holding the values 1 leaves the source with handles 1 and 1, and
destroying the source deletes vertex array 1 and buffer 1, which belong to `triangle1`;
with storage holding the values 2, destroying the source deletes vertex array 2 and
buffer 2, which the destination now owns. -/
theorem C8_moved_from_source_keeps_indeterminate_handles :
    (∀ (β : Type) [Zero β] (junk : indeterminate) (g : geometry β),
      (geometry.move_ctor junk g).2.get_vao = junk.m_vao ∧
      (geometry.move_ctor junk g).2.get_vbo = junk.m_vbo ∧
      (geometry.move_ctor junk g).1.get_vao = g.get_vao ∧
      (geometry.move_ctor junk g).1.get_vbo = g.get_vbo) ∧
    ((geometry.move_ctor ⟨0, 1, 1⟩ sample.cube2).2.get_vao = 1 ∧
      (geometry.move_ctor ⟨0, 1, 1⟩ sample.cube2).2.get_vbo = 1 ∧
      (geometry.dtor sample.world2 (geometry.move_ctor ⟨0, 1, 1⟩ sample.cube2).2).gl.vertex_arrays
        = [2] ∧
      (geometry.dtor sample.world2 (geometry.move_ctor ⟨0, 1, 1⟩ sample.cube2).2).gl.buffers
        = [2] ∧
      sample.triangle1.get_vbo ∉
        (geometry.dtor sample.world2 (geometry.move_ctor ⟨0, 1, 1⟩ sample.cube2).2).gl.buffers) ∧
    ((geometry.move_ctor ⟨0, 2, 2⟩ sample.cube2).1.get_vao ∉
        (geometry.dtor sample.world2 (geometry.move_ctor ⟨0, 2, 2⟩ sample.cube2).2).gl.vertex_arrays ∧
      (geometry.move_ctor ⟨0, 2, 2⟩ sample.cube2).1.get_vbo ∉
        (geometry.dtor sample.world2 (geometry.move_ctor ⟨0, 2, 2⟩ sample.cube2).2).gl.buffers) := by
  refine ⟨?_, ⟨rfl, rfl, ?_, ?_, ?_⟩, ?_, ?_⟩
  · intro β _ junk g
    cases g <;> exact ⟨rfl, rfl, rfl, rfl⟩
  · decide
  · decide
  · decide
  · decide
  · decide

end transfer_results

/-! ## Results: conversion to `float` -/

section float_results

theorem two_zpow_pos {α : Type} [LinearOrderedField α] (k : Int) : (0 : α) < 2 ^ k := by
  positivity

theorem two_zpow_le {α : Type} [LinearOrderedField α] {a b : Int} (h : a ≤ b) :
    (2 : α) ^ a ≤ 2 ^ b :=
  zpow_le_zpow_right₀ (by norm_num) h

theorem two_zpow_lt {α : Type} [LinearOrderedField α] {a b : Int} (h : a < b) :
    (2 : α) ^ a < 2 ^ b :=
  zpow_lt_zpow_right₀ (by norm_num) h

theorem int_two_pow_mul_zpow {α : Type} [LinearOrderedField α] (k : Nat) (e : Int) :
    (((2 : Int) ^ k : Int) : α) * 2 ^ e = 2 ^ (e + k) := by
  rw [Int.cast_pow, Int.cast_ofNat, ← zpow_natCast, ← zpow_add₀ two_ne_zero, add_comm]

theorem int_two_pow_24_mul {α : Type} [LinearOrderedField α] (E : Int) :
    ((2 ^ 24 : Int) : α) * 2 ^ (E - 23) = 2 ^ (E + 1) := by
  rw [int_two_pow_mul_zpow]
  congr 1
  push_cast
  omega

theorem int_two_pow_23_mul {α : Type} [LinearOrderedField α] (E : Int) :
    ((2 ^ 23 : Int) : α) * 2 ^ (E - 23) = 2 ^ E := by
  rw [int_two_pow_mul_zpow]
  congr 1
  push_cast
  omega

theorem two_pow_128_eq {α : Type} [LinearOrderedField α] :
    (2 : α) ^ 128 = (2 : α) ^ (128 : Int) := by
  norm_cast

theorem two_pow_127_eq {α : Type} [LinearOrderedField α] :
    (2 : α) ^ 127 = (2 : α) ^ (127 : Int) := by
  norm_cast

variable {α : Type} [LinearOrderedField α] [FloorRing α]

theorem round_half_even_intCast (n : Int) : round_half_even (n : α) = n := by
  unfold round_half_even
  simp

theorem abs_round_half_even_sub_le (x : α) : |(round_half_even x : α) - x| ≤ 1 / 2 := by
  have h0 : 0 ≤ x - ⌊x⌋ := sub_nonneg.mpr (Int.floor_le x)
  have h1 : x - ⌊x⌋ < 1 := by
    have := Int.lt_floor_add_one x
    linarith
  unfold round_half_even
  split_ifs with ha hb hc
  · rw [abs_le]; constructor <;> linarith
  · rw [abs_le]; push_cast; constructor <;> linarith
  · rw [abs_le]; push_neg at ha hb; constructor <;> linarith
  · rw [abs_le]; push_neg at ha hb; push_cast; constructor <;> linarith

theorem round_half_even_eq_of_abs_lt (x : α) (n : Int) (h : |x - n| < 1 / 2) :
    round_half_even x = n := by
  have h1 := abs_round_half_even_sub_le x
  have h2 : |((round_half_even x - n : Int) : α)| < 1 := by
    push_cast
    calc |(round_half_even x : α) - n| = |((round_half_even x : α) - x) + (x - n)| := by ring_nf
      _ ≤ |(round_half_even x : α) - x| + |x - n| := abs_add _ _
      _ < 1 := by linarith
  have h3 : |round_half_even x - n| < 1 := by
    have : ((|round_half_even x - n| : Int) : α) < ((1 : Int) : α) := by
      rw [Int.cast_abs]; simpa using h2
    exact_mod_cast this
  have := abs_lt.mp h3
  omega

theorem round_half_even_mono {x y : α} (h : x ≤ y) : round_half_even x ≤ round_half_even y := by
  by_contra hc
  push_neg at hc
  have h1 : ((round_half_even y : Int) : α) + 1 ≤ (round_half_even x : α) := by
    have : round_half_even y + 1 ≤ round_half_even x := hc
    exact_mod_cast this
  have hx := abs_le.mp (abs_round_half_even_sub_le x)
  have hy := abs_le.mp (abs_round_half_even_sub_le y)
  have hxy : x = y := le_antisymm h (by linarith)
  subst hxy
  exact lt_irrefl _ hc

theorem float_ulp_pos (x : α) : 0 < float_ulp x := by
  unfold float_ulp
  positivity

theorem float_ulp_neg (x : α) : float_ulp (-x) = float_ulp x := by
  unfold float_ulp
  rw [abs_neg]

theorem int_log_two_le_iff {x : α} (hx : 0 < x) (k : Int) :
    (2 : α) ^ k ≤ x ↔ k ≤ Int.log 2 x := by
  have := Int.zpow_le_iff_le_log (R := α) (b := 2) (by norm_num) (x := k) hx
  simpa using this

theorem int_log_two_lt_iff {x : α} (hx : 0 < x) (k : Int) :
    x < (2 : α) ^ k ↔ Int.log 2 x < k := by
  have := Int.lt_zpow_iff_log_lt (R := α) (b := 2) (by norm_num) (x := k) hx
  simpa using this

/-- The unit in the last place of a non-zero `x` whose magnitude lies below `2 ^ (E + 1)`
and, unless `E = -126`, at or above `2 ^ E`. -/
theorem float_ulp_eq (x : α) (E : Int) (hx : x ≠ 0) (hlt : |x| < 2 ^ (E + 1))
    (hge : E = -126 ∨ (-126 ≤ E ∧ 2 ^ E ≤ |x|)) : float_ulp x = 2 ^ (E - 23) := by
  have hpos : 0 < |x| := abs_pos.mpr hx
  have h1 : Int.log 2 |x| < E + 1 := (int_log_two_lt_iff hpos _).mp hlt
  unfold float_ulp
  rcases hge with h | ⟨h, h2⟩
  · have : max (Int.log 2 |x|) (-126) = E := by omega
    rw [this]
  · have h3 : E ≤ Int.log 2 |x| := (int_log_two_le_iff hpos _).mp h2
    have : max (Int.log 2 |x|) (-126) = E := by omega
    rw [this]

theorem round_half_even_zero : round_half_even (0 : α) = 0 := by
  have := round_half_even_intCast (α := α) 0
  simpa using this

theorem float_round_zero : float_round (0 : α) = 0 := by
  unfold float_round
  simp [round_half_even_zero]

theorem to_float_zero : to_float (0 : α) = 0 := by
  unfold to_float
  simp [float_round_zero]

/-- Evaluation of `to_float`: when the unit in the last place of `x` is `u`, the integer
`n` is within one half of `x / u` and `n * u` is below `2 ^ 128` in magnitude. -/
theorem to_float_of_ulp (x u : α) (n : Int) (hu : float_ulp x = u)
    (hn : |x / u - n| < 1 / 2) (hov : |(n : α) * u| < 2 ^ 128) :
    to_float x = n * u := by
  have hr : float_round x = n * u := by
    unfold float_round
    rw [hu, round_half_even_eq_of_abs_lt _ n hn]
  unfold to_float
  rw [hr, if_neg (not_le.mpr hov)]

theorem to_float_of_binade (x : α) (E n : Int) (hx : x ≠ 0) (hlt : |x| < 2 ^ (E + 1))
    (hge : E = -126 ∨ (-126 ≤ E ∧ 2 ^ E ≤ |x|))
    (hn : |x / 2 ^ (E - 23) - n| < 1 / 2) (hov : |(n : α) * 2 ^ (E - 23)| < 2 ^ 128) :
    to_float x = n * 2 ^ (E - 23) :=
  to_float_of_ulp x _ n (float_ulp_eq x E hx hlt hge) hn hov

theorem round_half_even_neg (x : α) : round_half_even (-x) = -round_half_even x := by
  by_cases h : |x - (round_half_even x : α)| < 1 / 2
  · apply round_half_even_eq_of_abs_lt
    push_cast
    rw [show -x - -(round_half_even x : α) = -(x - round_half_even x) by ring, abs_neg]
    exact h
  · have h0 : 0 ≤ x - ⌊x⌋ := sub_nonneg.mpr (Int.floor_le x)
    have h1 : x - ⌊x⌋ < 1 := by linarith [Int.lt_floor_add_one x]
    have hfr : x - ⌊x⌋ = 1 / 2 := by
      by_contra hne
      apply h
      unfold round_half_even
      split_ifs with ha hb hc
      · rw [abs_lt]; constructor <;> linarith
      · rw [abs_lt]; push_cast; constructor <;> linarith
      · exact absurd (le_antisymm (not_lt.mp hb) (not_lt.mp ha)) hne
      · exact absurd (le_antisymm (not_lt.mp hb) (not_lt.mp ha)) hne
    have hfl : ⌊-x⌋ = -⌊x⌋ - 1 := by
      rw [Int.floor_eq_iff]
      push_cast
      constructor <;> linarith
    have hfr2 : -x - ⌊-x⌋ = 1 / 2 := by
      rw [hfl]
      push_cast
      linarith
    unfold round_half_even
    rw [hfr2, hfr, hfl]
    simp only [lt_irrefl, if_false]
    split_ifs <;> omega

theorem float_round_neg (x : α) : float_round (-x) = -float_round x := by
  unfold float_round
  rw [float_ulp_neg, neg_div, round_half_even_neg]
  push_cast
  ring

theorem float_round_nonneg {x : α} (h : 0 ≤ x) : 0 ≤ float_round x := by
  unfold float_round
  have hu := float_ulp_pos x
  have h1 : round_half_even (0 : α) ≤ round_half_even (x / float_ulp x) :=
    round_half_even_mono (div_nonneg h hu.le)
  rw [round_half_even_zero] at h1
  have h2 : (0 : α) ≤ (round_half_even (x / float_ulp x) : α) := by exact_mod_cast h1
  positivity

theorem to_float_neg (x : α) : to_float (-x) = -to_float x := by
  unfold to_float
  rw [float_round_neg, abs_neg]
  by_cases hov : 2 ^ 128 ≤ |float_round x|
  · rw [if_pos hov, if_pos hov]
    have hx : x ≠ 0 := by
      rintro rfl
      rw [float_round_zero, abs_zero] at hov
      have : (0 : α) < 2 ^ 128 := by positivity
      linarith
    rcases lt_or_gt_of_ne hx with h | h
    · rw [if_pos (by linarith : 0 ≤ -x), if_neg (by linarith : ¬ 0 ≤ x)]
      ring
    · rw [if_neg (by linarith : ¬ 0 ≤ -x), if_pos (by linarith : 0 ≤ x)]
  · rw [if_neg hov, if_neg hov]

theorem to_float_of_nonneg {x : α} (h : 0 ≤ x) : to_float x = min (float_round x) (2 ^ 128) := by
  unfold to_float
  rw [abs_of_nonneg (float_round_nonneg h), if_pos h]
  by_cases hov : (2 : α) ^ 128 ≤ float_round x
  · rw [if_pos hov, min_eq_right hov]
  · rw [if_neg hov, min_eq_left (le_of_lt (not_le.mp hov))]

/-- The exponent of the binade of a non-zero `x`. -/
theorem exists_binade (x : α) (hx : x ≠ 0) :
    ∃ E : Int, -126 ≤ E ∧ float_ulp x = 2 ^ (E - 23) ∧ |x| < 2 ^ (E + 1) ∧
      (E = -126 ∨ 2 ^ E ≤ |x|) ∧ E = max (Int.log 2 |x|) (-126) := by
  have hpos : 0 < |x| := abs_pos.mpr hx
  refine ⟨max (Int.log 2 |x|) (-126), le_max_right _ _, rfl, ?_, ?_, rfl⟩
  · have h1 : |x| < 2 ^ (Int.log 2 |x| + 1) := (int_log_two_lt_iff hpos _).mpr (by omega)
    exact lt_of_lt_of_le h1 (two_zpow_le (by omega))
  · by_cases h : Int.log 2 |x| ≤ -126
    · left
      omega
    · right
      have : max (Int.log 2 |x|) (-126) = Int.log 2 |x| := by omega
      rw [this]
      exact (int_log_two_le_iff hpos _).mpr le_rfl

theorem float_round_le_of_pos {x : α} (E : Int) (hu : float_ulp x = 2 ^ (E - 23))
    (hlt : x < 2 ^ (E + 1)) : float_round x ≤ 2 ^ (E + 1) := by
  unfold float_round
  rw [hu]
  have hup : (0 : α) < 2 ^ (E - 23) := two_zpow_pos _
  have h1 : x / 2 ^ (E - 23) ≤ ((2 ^ 24 : Int) : α) := by
    rw [div_le_iff₀ hup]
    rw [int_two_pow_24_mul]
    exact hlt.le
  have h2 := round_half_even_mono h1
  rw [round_half_even_intCast] at h2
  have h3 : ((round_half_even (x / 2 ^ (E - 23)) : Int) : α) ≤ ((2 ^ 24 : Int) : α) := by
    exact_mod_cast h2
  calc (round_half_even (x / 2 ^ (E - 23)) : α) * 2 ^ (E - 23)
      ≤ ((2 ^ 24 : Int) : α) * 2 ^ (E - 23) := by
        exact mul_le_mul_of_nonneg_right h3 hup.le
    _ = 2 ^ (E + 1) := int_two_pow_24_mul E

theorem le_float_round_of_pos {x : α} (E : Int) (hu : float_ulp x = 2 ^ (E - 23))
    (hge : 2 ^ E ≤ x) : 2 ^ E ≤ float_round x := by
  unfold float_round
  rw [hu]
  have hup : (0 : α) < 2 ^ (E - 23) := two_zpow_pos _
  have hE : ((2 ^ 23 : Int) : α) * 2 ^ (E - 23) = 2 ^ E := int_two_pow_23_mul E
  have h1 : ((2 ^ 23 : Int) : α) ≤ x / 2 ^ (E - 23) := by
    rw [le_div_iff₀ hup, hE]
    exact hge
  have h2 := round_half_even_mono h1
  rw [round_half_even_intCast] at h2
  have h3 : ((2 ^ 23 : Int) : α) ≤ ((round_half_even (x / 2 ^ (E - 23)) : Int) : α) := by
    exact_mod_cast h2
  calc (2 : α) ^ E = ((2 ^ 23 : Int) : α) * 2 ^ (E - 23) := hE.symm
    _ ≤ (round_half_even (x / 2 ^ (E - 23)) : α) * 2 ^ (E - 23) :=
        mul_le_mul_of_nonneg_right h3 hup.le

theorem float_round_mono_of_nonneg {x y : α} (hx : 0 ≤ x) (h : x ≤ y) :
    float_round x ≤ float_round y := by
  rcases eq_or_lt_of_le hx with h0 | hxpos
  · rw [← h0, float_round_zero]
    exact float_round_nonneg (hx.trans h)
  have hypos : 0 < y := lt_of_lt_of_le hxpos h
  obtain ⟨Ex, hEx, hux, hltx, hgex, hEx2⟩ := exists_binade x hxpos.ne'
  obtain ⟨Ey, hEy, huy, hlty, hgey, hEy2⟩ := exists_binade y hypos.ne'
  rw [abs_of_pos hxpos] at hltx hgex hEx2
  rw [abs_of_pos hypos] at hlty hgey hEy2
  have hlog : Int.log 2 x ≤ Int.log 2 y := Int.log_mono_right hxpos h
  have hE : Ex ≤ Ey := by omega
  rcases eq_or_lt_of_le hE with he | he
  · unfold float_round
    rw [hux, huy, he]
    have hup : (0 : α) < 2 ^ (Ey - 23) := two_zpow_pos _
    have h1 : x / 2 ^ (Ey - 23) ≤ y / 2 ^ (Ey - 23) := div_le_div_of_nonneg_right h hup.le
    have h2 := round_half_even_mono h1
    have h3 : ((round_half_even (x / 2 ^ (Ey - 23)) : Int) : α)
        ≤ ((round_half_even (y / 2 ^ (Ey - 23)) : Int) : α) := by exact_mod_cast h2
    exact mul_le_mul_of_nonneg_right h3 hup.le
  · have hy2 : (2 : α) ^ Ey ≤ y := by
      rcases hgey with h1 | h1
      · omega
      · exact h1
    calc float_round x ≤ 2 ^ (Ex + 1) := float_round_le_of_pos Ex hux hltx
      _ ≤ 2 ^ Ey := two_zpow_le (by omega)
      _ ≤ float_round y := le_float_round_of_pos Ey huy hy2

theorem to_float_nonneg {x : α} (h : 0 ≤ x) : 0 ≤ to_float x := by
  rw [to_float_of_nonneg h]
  exact le_min (float_round_nonneg h) (by positivity)

theorem to_float_mono {x y : α} (h : x ≤ y) : to_float x ≤ to_float y := by
  rcases le_total 0 x with hx | hx
  · rw [to_float_of_nonneg hx, to_float_of_nonneg (hx.trans h)]
    exact min_le_min (float_round_mono_of_nonneg hx h) le_rfl
  · rcases le_total 0 y with hy | hy
    · have h1 : to_float x ≤ 0 := by
        have := to_float_nonneg (neg_nonneg.mpr hx)
        rw [to_float_neg] at this
        linarith
      exact h1.trans (to_float_nonneg hy)
    · have h1 : to_float (-y) ≤ to_float (-x) := by
        rw [to_float_of_nonneg (neg_nonneg.mpr hy), to_float_of_nonneg (neg_nonneg.mpr hx)]
        exact min_le_min (float_round_mono_of_nonneg (neg_nonneg.mpr hy) (neg_le_neg h)) le_rfl
      rw [to_float_neg, to_float_neg] at h1
      linarith

/-- A value on the grid of its own binade is left unchanged. -/
theorem to_float_of_exact (r : α) (E n : Int) (hr : r = n * 2 ^ (E - 23)) (h0 : r ≠ 0)
    (hlt : |r| < 2 ^ (E + 1)) (hge : E = -126 ∨ (-126 ≤ E ∧ 2 ^ E ≤ |r|))
    (hov : |r| < 2 ^ 128) : to_float r = r := by
  have hup : (0 : α) < 2 ^ (E - 23) := two_zpow_pos _
  rw [to_float_of_binade r E n h0 hlt hge _ (by rw [← hr]; exact hov)]
  · exact hr.symm
  · rw [hr, mul_div_assoc, div_self hup.ne', mul_one, sub_self, abs_zero]
    norm_num

theorem to_float_two_pow_128 : to_float ((2 : α) ^ 128) = 2 ^ 128 := by
  have hpos : (0 : α) < 2 ^ 128 := by positivity
  have hu : float_ulp ((2 : α) ^ 128) = 2 ^ ((128 : Int) - 23) := by
    apply float_ulp_eq _ _ hpos.ne'
    · rw [abs_of_pos hpos, two_pow_128_eq]
      exact two_zpow_lt (by norm_num)
    · right
      refine ⟨by norm_num, ?_⟩
      rw [abs_of_pos hpos, two_pow_128_eq]
  have hr : float_round ((2 : α) ^ 128) = 2 ^ 128 := by
    unfold float_round
    rw [hu]
    have h1 : (2 : α) ^ 128 / 2 ^ ((128 : Int) - 23) = ((2 ^ 23 : Int) : α) := by
      rw [div_eq_iff (two_zpow_pos _).ne', int_two_pow_23_mul, two_pow_128_eq]
    rw [h1, round_half_even_intCast, int_two_pow_23_mul, two_pow_128_eq]
  unfold to_float
  rw [hr, abs_of_pos hpos, if_pos le_rfl, if_pos hpos.le]

theorem to_float_to_float_of_pos {x : α} (hx : 0 < x) : to_float (to_float x) = to_float x := by
  obtain ⟨E, hE, hu, hlt, hge, _⟩ := exists_binade x hx.ne'
  rw [abs_of_pos hx] at hlt hge
  have hle : float_round x ≤ 2 ^ (E + 1) := float_round_le_of_pos E hu hlt
  have hnn : 0 ≤ float_round x := float_round_nonneg hx.le
  rw [to_float_of_nonneg hx.le]
  by_cases hov : (2 : α) ^ 128 ≤ float_round x
  · rw [min_eq_right hov]
    exact to_float_two_pow_128
  · rw [min_eq_left (le_of_lt (not_le.mp hov))]
    push_neg at hov
    rcases eq_or_lt_of_le hnn with h0 | hpos
    · rw [← h0]
      exact to_float_zero
    have hr : float_round x = (round_half_even (x / 2 ^ (E - 23)) : α) * 2 ^ (E - 23) := by
      unfold float_round
      rw [hu]
    rcases eq_or_lt_of_le hle with heq | hlt2
    · apply to_float_of_exact _ (E + 1) (2 ^ 23)
      · rw [heq, show E + 1 - 23 = (E + 1) - 23 from rfl, int_two_pow_23_mul]
      · exact hpos.ne'
      · rw [abs_of_pos hpos, heq]
        exact two_zpow_lt (by omega)
      · right
        refine ⟨by omega, ?_⟩
        rw [abs_of_pos hpos, heq]
      · rw [abs_of_pos hpos]
        exact hov
    · apply to_float_of_exact _ E _ hr hpos.ne'
      · rw [abs_of_pos hpos]
        exact hlt2
      · rcases hge with h1 | h1
        · left
          exact h1
        · right
          refine ⟨hE, ?_⟩
          rw [abs_of_pos hpos]
          exact le_float_round_of_pos E hu h1
      · rw [abs_of_pos hpos]
        exact hov

/-- Converting a `float` value again leaves it unchanged. -/
theorem to_float_to_float (x : α) : to_float (to_float x) = to_float x := by
  rcases lt_trichotomy x 0 with h | h | h
  · have := to_float_to_float_of_pos (neg_pos.mpr h)
    rw [to_float_neg, to_float_neg] at this
    exact neg_injective this
  · rw [h, to_float_zero, to_float_zero]
  · exact to_float_to_float_of_pos h

theorem is_float_zero : is_float (0 : α) :=
  ⟨to_float_zero, by rw [abs_zero]; positivity⟩

theorem is_float_neg {x : α} (h : is_float x) : is_float (-x) :=
  ⟨by rw [to_float_neg, h.1], by rw [abs_neg]; exact h.2⟩

/-- A value on the grid of its own binade is a finite `float` value. -/
theorem is_float_of_exact (r : α) (E n : Int) (hr : r = n * 2 ^ (E - 23)) (h0 : r ≠ 0)
    (hlt : |r| < 2 ^ (E + 1)) (hge : E = -126 ∨ (-126 ≤ E ∧ 2 ^ E ≤ |r|))
    (hov : |r| < 2 ^ 128) : is_float r :=
  ⟨to_float_of_exact r E n hr h0 hlt hge hov, hov⟩

theorem to_float_le_of_le {x f : α} (hf : is_float f) (h : x ≤ f) : to_float x ≤ f := by
  have := to_float_mono h
  rwa [hf.1] at this

theorem le_to_float_of_le {x f : α} (hf : is_float f) (h : f ≤ x) : f ≤ to_float x := by
  have := to_float_mono h
  rwa [hf.1] at this

theorem abs_float_round_sub_le (x : α) : |float_round x - x| ≤ float_ulp x / 2 := by
  have hu := float_ulp_pos x
  have h := abs_round_half_even_sub_le (x / float_ulp x)
  have h2 : float_round x - x
      = ((round_half_even (x / float_ulp x) : α) - x / float_ulp x) * float_ulp x := by
    unfold float_round
    field_simp
  rw [h2, abs_mul, abs_of_pos hu]
  calc |(round_half_even (x / float_ulp x) : α) - x / float_ulp x| * float_ulp x
      ≤ 1 / 2 * float_ulp x := mul_le_mul_of_nonneg_right h hu.le
    _ = float_ulp x / 2 := by ring

/-- The rounding error of `to_float` below the overflow range: at most `2 ^ -24` relative
to `x`, or `2 ^ -150` for the subnormal values. -/
theorem abs_to_float_sub_le (x : α) (h : |x| < 2 ^ (127 : Int)) :
    |to_float x - x| ≤ |x| * 2 ^ (-24 : Int) + 2 ^ (-150 : Int) := by
  rcases eq_or_ne x 0 with rfl | hx
  · rw [to_float_zero]
    simp
    positivity
  obtain ⟨E, hE, hu, hlt, hge, hmax⟩ := exists_binade x hx
  have hpos : 0 < |x| := abs_pos.mpr hx
  have hlog : Int.log 2 |x| < 127 := (int_log_two_lt_iff hpos _).mp h
  have hE2 : E ≤ 126 := by omega
  have herr := abs_float_round_sub_le x
  rw [hu] at herr
  have hhalf : (2 : α) ^ (E - 23) / 2 = 2 ^ (E - 24) := by
    rw [show E - 24 = (E - 23) - 1 by ring, zpow_sub_one₀ two_ne_zero]
    ring
  rw [hhalf] at herr
  have hb : (2 : α) ^ (E - 24) ≤ |x| * 2 ^ (-24 : Int) + 2 ^ (-150 : Int) := by
    rcases hge with h1 | h1
    · rw [h1]
      have h2 : (0 : α) ≤ |x| * 2 ^ (-24 : Int) := by positivity
      have h3 : (2 : α) ^ ((-126 : Int) - 24) = 2 ^ (-150 : Int) := by norm_num
      rw [h3]
      linarith
    · have h3 : (2 : α) ^ (E - 24) = 2 ^ E * 2 ^ (-24 : Int) := by
        rw [← zpow_add₀ two_ne_zero]
        congr 1
      rw [h3]
      have h4 : (2 : α) ^ E * 2 ^ (-24 : Int) ≤ |x| * 2 ^ (-24 : Int) :=
        mul_le_mul_of_nonneg_right h1 (two_zpow_pos _).le
      have : (0 : α) < 2 ^ (-150 : Int) := two_zpow_pos _
      linarith
  have hov : |float_round x| < 2 ^ 128 := by
    have h5 : |float_round x| ≤ |x| + 2 ^ (E - 24) := by
      calc |float_round x| = |(float_round x - x) + x| := by ring_nf
        _ ≤ |float_round x - x| + |x| := abs_add _ _
        _ ≤ |x| + 2 ^ (E - 24) := by linarith
    have h6 : (2 : α) ^ (E - 24) ≤ 2 ^ (102 : Int) := two_zpow_le (by omega)
    have h7 : (2 : α) ^ (127 : Int) + 2 ^ (102 : Int) < 2 ^ 128 := by norm_num
    linarith
  unfold to_float
  rw [if_neg (not_le.mpr hov)]
  exact herr.trans hb

theorem to_float_pos_of_lt {q : α} (h : 2 ^ (-150 : Int) < q) : 0 < to_float q := by
  have hq : 0 < q := lt_trans (two_zpow_pos _) h
  rw [to_float_of_nonneg hq.le]
  refine lt_min ?_ (by positivity)
  obtain ⟨E, hE, hu, hlt, hge, _⟩ := exists_binade q hq.ne'
  rw [abs_of_pos hq] at hlt hge
  rcases hge with h1 | h1
  · subst h1
    unfold float_round
    rw [hu]
    have hup : (0 : α) < 2 ^ ((-126 : Int) - 23) := two_zpow_pos _
    have h2 : (1 / 2 : α) < q / 2 ^ ((-126 : Int) - 23) := by
      rw [lt_div_iff₀ hup]
      have : (1 / 2 : α) * 2 ^ ((-126 : Int) - 23) = 2 ^ (-150 : Int) := by
        rw [show ((-126 : Int) - 23) = (-150 : Int) + 1 by norm_num, zpow_add_one₀ two_ne_zero]
        ring
      rw [this]
      exact h
    have h3 := abs_le.mp (abs_round_half_even_sub_le (q / 2 ^ ((-126 : Int) - 23)))
    have h4 : (0 : α) < (round_half_even (q / 2 ^ ((-126 : Int) - 23)) : α) := by linarith
    positivity
  · exact lt_of_lt_of_le (two_zpow_pos E) (le_float_round_of_pos E hu h1)

/-- Every `float` value is an integer multiple of `2 ^ -149`. -/
theorem exists_int_mul_of_is_float {x : α} (h : is_float x) :
    ∃ k : Int, x = k * 2 ^ (-149 : Int) := by
  have hgrid : ∀ (E : Int), -126 ≤ E → ∀ n : Int,
      ∃ k : Int, (n : α) * 2 ^ (E - 23) = k * 2 ^ (-149 : Int) := by
    intro E hE n
    refine ⟨n * 2 ^ (E + 126).toNat, ?_⟩
    rw [Int.cast_mul, mul_assoc, int_two_pow_mul_zpow]
    congr 2
    have : ((E + 126).toNat : Int) = E + 126 := Int.toNat_of_nonneg (by omega)
    omega
  have h128 : ∃ k : Int, (2 : α) ^ 128 = k * 2 ^ (-149 : Int) := by
    refine ⟨2 ^ 277, ?_⟩
    rw [int_two_pow_mul_zpow, two_pow_128_eq]
    congr 1
  rw [← h.1]
  rcases eq_or_ne x 0 with rfl | hx
  · exact ⟨0, by rw [to_float_zero]; simp⟩
  obtain ⟨E, hE, hu, -, -, -⟩ := exists_binade x hx
  unfold to_float
  split_ifs with h1 h2
  · exact h128
  · obtain ⟨k, hk⟩ := h128
    exact ⟨-k, by rw [hk]; push_cast; ring⟩
  · unfold float_round
    rw [hu]
    exact hgrid E hE _

theorem le_sub_of_is_float_of_lt {a b : α} (ha : is_float a) (hb : is_float b) (h : a < b) :
    2 ^ (-149 : Int) ≤ b - a := by
  obtain ⟨ka, hka⟩ := exists_int_mul_of_is_float ha
  obtain ⟨kb, hkb⟩ := exists_int_mul_of_is_float hb
  have hup : (0 : α) < 2 ^ (-149 : Int) := two_zpow_pos _
  have h1 : (ka : α) < kb := by
    rw [hka, hkb] at h
    exact lt_of_mul_lt_mul_right h hup.le
  have h2 : ka + 1 ≤ kb := by
    have : ka < kb := by exact_mod_cast h1
    omega
  have h3 : (ka : α) + 1 ≤ kb := by exact_mod_cast h2
  rw [hka, hkb, ← sub_mul]
  calc (2 : α) ^ (-149 : Int) = 1 * 2 ^ (-149 : Int) := (one_mul _).symm
    _ ≤ ((kb : α) - ka) * 2 ^ (-149 : Int) :=
        mul_le_mul_of_nonneg_right (by linarith) hup.le

theorem to_float_two_zpow_neg_149 : to_float ((2 : α) ^ (-149 : Int)) = 2 ^ (-149 : Int) := by
  have hup : (0 : α) < 2 ^ (-149 : Int) := two_zpow_pos _
  apply to_float_of_exact _ (-126) 1
  · norm_num
  · exact hup.ne'
  · rw [abs_of_pos hup]
    exact two_zpow_lt (by norm_num)
  · left
    rfl
  · rw [abs_of_pos hup]
    calc (2 : α) ^ (-149 : Int) ≤ 2 ^ (0 : Int) := two_zpow_le (by norm_num)
      _ < 2 ^ 128 := by norm_num

end float_results

section float_values
variable {α : Type} [LinearOrderedField α] [FloorRing α]

theorem is_float_200 : is_float (200 : α) :=
  is_float_of_exact 200 7 (200 * 2 ^ 16) (by norm_num) (by norm_num)
    (by rw [abs_of_pos (by norm_num)]; norm_num)
    (Or.inr ⟨by norm_num, by rw [abs_of_pos (by norm_num)]; norm_num⟩)
    (by rw [abs_of_pos (by norm_num)]; norm_num)

theorem is_float_90 : is_float (90 : α) :=
  is_float_of_exact 90 6 (90 * 2 ^ 17) (by norm_num) (by norm_num)
    (by rw [abs_of_pos (by norm_num)]; norm_num)
    (Or.inr ⟨by norm_num, by rw [abs_of_pos (by norm_num)]; norm_num⟩)
    (by rw [abs_of_pos (by norm_num)]; norm_num)

theorem is_float_89 : is_float (89 : α) :=
  is_float_of_exact 89 6 (89 * 2 ^ 17) (by norm_num) (by norm_num)
    (by rw [abs_of_pos (by norm_num)]; norm_num)
    (Or.inr ⟨by norm_num, by rw [abs_of_pos (by norm_num)]; norm_num⟩)
    (by rw [abs_of_pos (by norm_num)]; norm_num)

/-- The `float` value next above 89. -/
theorem is_float_succ_89 : is_float (89 + 1 / 131072 : α) :=
  is_float_of_exact _ 6 (89 * 2 ^ 17 + 1) (by norm_num) (by norm_num)
    (by rw [abs_of_pos (by norm_num)]; norm_num)
    (Or.inr ⟨by norm_num, by rw [abs_of_pos (by norm_num)]; norm_num⟩)
    (by rw [abs_of_pos (by norm_num)]; norm_num)

theorem to_float_one_tenth : to_float (1 / 10 : α) = 13421773 / 134217728 := by
  rw [to_float_of_binade (1 / 10 : α) (-4) 13421773 (by norm_num)
    (by rw [abs_of_pos (by norm_num)]; norm_num)
    (Or.inr ⟨by norm_num, by rw [abs_of_pos (by norm_num)]; norm_num⟩)
    (by rw [abs_lt]; constructor <;> norm_num)
    (by rw [abs_of_pos (by norm_num)]; norm_num)]
  norm_num

end float_values

/-! ## Results: the camera -/

section camera_results

open mk

theorem mk.gl_camera.get_pitch_set_rotation {α : Type} [LinearOrderedField α] [FloorRing α]
    (M : cmath α) (cam : gl_camera α) (pitch yaw : α) :
    (gl_camera.set_rotation M cam pitch yaw).get_pitch = to_float pitch :=
  to_float_to_float pitch

theorem mk.gl_camera.get_yaw_set_rotation {α : Type} [LinearOrderedField α] [FloorRing α]
    (M : cmath α) (cam : gl_camera α) (pitch yaw : α) :
    (gl_camera.set_rotation M cam pitch yaw).get_yaw = to_float yaw :=
  to_float_to_float yaw

/-- C9 (counterexample): after `set_rotation(200, 0)` the stored pitch is 200, not 89, and
after `set_rotation(-200, 0)` it is -200, not -89. -/
theorem C9_counterexample :
    (gl_camera.set_rotation ⟨Real.sin, Real.cos, Real.sqrt⟩
      (gl_camera.ctor ⟨Real.sin, Real.cos, Real.sqrt⟩ 1 ⟨0, 0, 30⟩) 200 0).get_pitch = 200 ∧
    (gl_camera.set_rotation ⟨Real.sin, Real.cos, Real.sqrt⟩
      (gl_camera.ctor ⟨Real.sin, Real.cos, Real.sqrt⟩ 1 ⟨0, 0, 30⟩) 200 0).get_pitch ≠ 89 ∧
    (gl_camera.set_rotation ⟨Real.sin, Real.cos, Real.sqrt⟩
      (gl_camera.ctor ⟨Real.sin, Real.cos, Real.sqrt⟩ 1 ⟨0, 0, 30⟩) (-200) 0).get_pitch = -200 ∧
    (gl_camera.set_rotation ⟨Real.sin, Real.cos, Real.sqrt⟩
      (gl_camera.ctor ⟨Real.sin, Real.cos, Real.sqrt⟩ 1 ⟨0, 0, 30⟩) (-200) 0).get_pitch ≠ -89 := by
  have h1 : to_float (200 : ℝ) = 200 := is_float_200.1
  have h2 : to_float (-200 : ℝ) = -200 := (is_float_neg is_float_200).1
  rw [mk.gl_camera.get_pitch_set_rotation, mk.gl_camera.get_pitch_set_rotation, h1, h2]
  norm_num

/-- C9 (amended): `set_rotation(pitch, yaw)` stores the pitch converted to `float` (the
nearest binary32 value), without clamping: for every pitch, also above 89 or below -89,
`get_pitch()` afterwards is that `float` value (and `get_yaw()` the yaw converted).  It is
the pitch given whenever the pitch is a finite `float` value (200 gives 200, -200 gives
-200), it differs from the pitch given by at most `|pitch| / 2^24 + 2^-150` below the
overflow range (0.1 gives 13421773 / 134217728), and it is above 89 for every pitch from
the next `float` value after 89 on, and below -89 likewise. -/
theorem C9_set_rotation_stores_pitch_unclamped {α : Type} [LinearOrderedField α]
    [FloorRing α] (M : cmath α) (cam : gl_camera α) (pitch yaw : α) :
    (gl_camera.set_rotation M cam pitch yaw).get_pitch = to_float pitch ∧
    (gl_camera.set_rotation M cam pitch yaw).get_yaw = to_float yaw ∧
    (is_float pitch → (gl_camera.set_rotation M cam pitch yaw).get_pitch = pitch) ∧
    (|pitch| < 2 ^ 127 →
      |(gl_camera.set_rotation M cam pitch yaw).get_pitch - pitch|
        ≤ |pitch| / 2 ^ 24 + 1 / 2 ^ 150) ∧
    (89 + 1 / 131072 ≤ pitch → 89 < (gl_camera.set_rotation M cam pitch yaw).get_pitch) ∧
    (pitch ≤ -(89 + 1 / 131072) →
      (gl_camera.set_rotation M cam pitch yaw).get_pitch < -89) ∧
    to_float (200 : α) = 200 ∧ to_float (-200 : α) = -200 ∧
    to_float (1 / 10 : α) = 13421773 / 134217728 := by
  rw [mk.gl_camera.get_pitch_set_rotation, mk.gl_camera.get_yaw_set_rotation]
  refine ⟨rfl, rfl, fun h => h.1, ?_, ?_, ?_, is_float_200.1, (is_float_neg is_float_200).1,
    to_float_one_tenth⟩
  · intro h
    have h1 := abs_to_float_sub_le pitch (by rw [← two_pow_127_eq]; exact h)
    have h2 : (2 : α) ^ (-24 : Int) = 1 / 2 ^ 24 := by norm_num
    have h3 : (2 : α) ^ (-150 : Int) = 1 / 2 ^ 150 := by norm_num
    rw [h2, h3] at h1
    rw [div_eq_mul_one_div]
    exact h1
  · intro h
    have h1 := le_to_float_of_le is_float_succ_89 h
    have : (89 : α) < 89 + 1 / 131072 := by norm_num
    linarith
  · intro h
    have h1 := to_float_le_of_le (is_float_neg is_float_succ_89) h
    have : -(89 + 1 / 131072 : α) < -89 := by norm_num
    linarith

theorem glm.dot_direction (p y : ℝ) :
    glm.dot (⟨Real.sin y * Real.cos p, Real.sin p, -Real.cos y * Real.cos p⟩ : glm.vec3 ℝ)
      ⟨Real.sin y * Real.cos p, Real.sin p, -Real.cos y * Real.cos p⟩ = 1 := by
  have hy := Real.sin_sq_add_cos_sq y
  have hp := Real.sin_sq_add_cos_sq p
  show Real.sin y * Real.cos p * (Real.sin y * Real.cos p) + Real.sin p * Real.sin p
    + -Real.cos y * Real.cos p * (-Real.cos y * Real.cos p) = 1
  linear_combination (Real.cos p) ^ 2 * hy + hp

theorem glm.normalize_direction (p y : ℝ) :
    glm.normalize ⟨Real.sin, Real.cos, Real.sqrt⟩
      (⟨Real.sin y * Real.cos p, Real.sin p, -Real.cos y * Real.cos p⟩ : glm.vec3 ℝ)
      = ⟨Real.sin y * Real.cos p, Real.sin p, -Real.cos y * Real.cos p⟩ := by
  unfold glm.normalize
  simp only [glm.dot_direction, Real.sqrt_one, div_one, mul_one]

/-- C10: over the real numbers with the real sine, cosine and square root, for every pitch
and yaw in degrees, the front vector after `set_rotation(pitch, yaw)` is
`(sin(yaw) * cos(pitch), sin(pitch), -cos(yaw) * cos(pitch))` with both angles passed
through `glm::radians`; it is the same whatever camera the call is made on, and its
length is exactly 1. -/
theorem C10_front_is_unit_direction (cam : gl_camera ℝ) (pitch yaw : ℝ) :
    (gl_camera.set_rotation ⟨Real.sin, Real.cos, Real.sqrt⟩ cam pitch yaw).front =
      ⟨Real.sin (glm.radians yaw) * Real.cos (glm.radians pitch),
       Real.sin (glm.radians pitch),
       -Real.cos (glm.radians yaw) * Real.cos (glm.radians pitch)⟩ ∧
    (∀ cam2 : gl_camera ℝ,
      (gl_camera.set_rotation ⟨Real.sin, Real.cos, Real.sqrt⟩ cam2 pitch yaw).front =
        (gl_camera.set_rotation ⟨Real.sin, Real.cos, Real.sqrt⟩ cam pitch yaw).front) ∧
    glm.length ⟨Real.sin, Real.cos, Real.sqrt⟩
      (gl_camera.set_rotation ⟨Real.sin, Real.cos, Real.sqrt⟩ cam pitch yaw).front = 1 := by
  have hfront : ∀ c : gl_camera ℝ,
      (gl_camera.set_rotation ⟨Real.sin, Real.cos, Real.sqrt⟩ c pitch yaw).front =
        ⟨Real.sin (glm.radians yaw) * Real.cos (glm.radians pitch),
         Real.sin (glm.radians pitch),
         -Real.cos (glm.radians yaw) * Real.cos (glm.radians pitch)⟩ := by
    intro c
    show glm.normalize _ _ = _
    exact glm.normalize_direction (glm.radians pitch) (glm.radians yaw)
  refine ⟨hfront cam, fun cam2 => by rw [hfront cam2, hfront cam], ?_⟩
  rw [hfront cam]
  show Real.sqrt (glm.dot _ _) = 1
  rw [glm.dot_direction, Real.sqrt_one]

end camera_results

/-! ## Results: the transform -/

section transform_results

theorem mk.location.get_matrix_eq {α : Type} [Field α] (p : glm.vec3 α) :
    (mk.location.mk p).get_matrix =
      !![1, 0, 0, p.x; 0, 1, 0, p.y; 0, 0, 1, p.z; 0, 0, 0, 1] := by
  ext i j
  fin_cases i <;> fin_cases j <;>
    simp [mk.location.get_matrix, glm.translate, Matrix.vecHead, Matrix.vecTail]

/-- C16: for every position `p`, `mk::location(p).get_matrix()` has the identity as its
upper-left 3x3 block, `(0, 0, 0, 1)` as its last row and `p` as its translation column; it
maps every point `q` (with `w = 1`) to `q + p`; and the default location gives the
identity matrix. -/
theorem C16_location_matrix_is_translation {α : Type} [Field α] (p : glm.vec3 α) :
    (mk.location.mk p).get_matrix =
      !![1, 0, 0, p.x; 0, 1, 0, p.y; 0, 0, 1, p.z; 0, 0, 0, 1] ∧
    (∀ q : glm.vec3 α,
      Matrix.mulVec (mk.location.mk p).get_matrix (glm.vec4.of_vec3 q 1)
        = glm.vec4.of_vec3 (glm.vec3.add q p) 1) ∧
    (mk.location.default : mk.location α).get_matrix = 1 := by
  refine ⟨mk.location.get_matrix_eq p, ?_, ?_⟩
  · intro q
    rw [mk.location.get_matrix_eq]
    ext i
    fin_cases i <;>
      simp [glm.vec4.of_vec3, glm.vec3.add, Matrix.mulVec, Matrix.dotProduct, Fin.sum_univ_four]
  · show (mk.location.mk (⟨0, 0, 0⟩ : glm.vec3 α)).get_matrix = 1
    rw [mk.location.get_matrix_eq]
    ext i j
    fin_cases i <;> fin_cases j <;> simp [Matrix.vecHead, Matrix.vecTail]

end transform_results

/-! ## Results: replacing the vertex data -/

section set_vertices_results

open mk.geo

theorem mk.geo.geometry.set_vertices_get_location {α : Type} (P : platform α) (w : world α)
    (g : geometry α) (v : List α) :
    (geometry.set_vertices P w g v).1.get_location = g.get_location := by
  cases g <;> rfl

theorem mk.geo.triangle_set_vertices_upload_size {α : Type} (P : platform α) (w : world α)
    (t : triangle α) (v : List α) (hlive : t.m_vbo ∈ w.gl.buffers) (h0 : t.m_vbo ≠ 0) :
    ((triangle.set_vertices P w t v).2.gl.buffer_data t.m_vbo).map buffer_store.size
      = some P.sizeof_vector := by
  have hb := glBindBuffer_binding_of_mem w.gl t.m_vbo hlive
  have := glBufferData_buffer_data_bound (glBindBuffer w.gl t.m_vbo) P.sizeof_vector
    (read_floats P v (P.sizeof_vector / 4)) (by rw [hb]; exact h0)
  rw [hb] at this
  show ((glBufferData (glBindBuffer w.gl t.m_vbo) _ _).buffer_data t.m_vbo).map _ = _
  rw [this]
  rfl

theorem mk.geo.cube_set_vertices_upload_size {α : Type} (P : platform α) (w : world α)
    (c : cube α) (v : List α) (hlive : c.m_vbo ∈ w.gl.buffers) (h0 : c.m_vbo ≠ 0) :
    ((cube.set_vertices P w c v).2.gl.buffer_data c.m_vbo).map buffer_store.size
      = some 432 := by
  have hb := glBindBuffer_binding_of_mem w.gl c.m_vbo hlive
  have := glBufferData_buffer_data_bound (glBindBuffer w.gl c.m_vbo) (108 * 4)
    (read_floats P v 108) (by rw [hb]; exact h0)
  rw [hb] at this
  show ((glBufferData (glBindBuffer w.gl c.m_vbo) _ _).buffer_data c.m_vbo).map _ = _
  rw [this]
  rfl

/-- C19: for every triangle or cube `g` and every replacement vertex sequence `v`,
`g.set_vertices(v)` leaves the identity, the vertex-array handle, the vertex-buffer handle and
the transform of `g` unchanged, and afterwards `g.get_vertices()` is `v`. -/
theorem C19_set_vertices_preserves_identity_and_handles {α : Type} (P : platform α)
    (w : world α) (g : geometry α) (v : List α) :
    (geometry.set_vertices P w g v).1.get_id = g.get_id ∧
    (geometry.set_vertices P w g v).1.get_vao = g.get_vao ∧
    (geometry.set_vertices P w g v).1.get_vbo = g.get_vbo ∧
    (geometry.set_vertices P w g v).1.get_location = g.get_location ∧
    (geometry.set_vertices P w g v).1.get_vertices = v :=
  ⟨geometry.set_vertices_get_id P w g v, geometry.set_vertices_get_vao P w g v,
    geometry.set_vertices_get_vbo P w g v, geometry.set_vertices_get_location P w g v,
    geometry.set_vertices_get_vertices P w g v⟩

/-- C20 (evaluation of the code): on a platform whose vector objects take 24 bytes,
`triangle::set_vertices` with nine floats (36 bytes of data) uploads 24 bytes: the size
argument is `sizeof m_vertices`, the size of the vector object, whatever the data.  In
general a live triangle uploads `sizeof(std::vector<float>)` bytes and a live cube 432. -/
theorem C20_triangle_set_vertices_uploads_sizeof_vector :
    ((geometry.set_vertices sample.platform0 sample.world1 sample.triangle1
        [0, 0, 0, 2, 0, 0, 0, 2, 2]).2.gl.buffer_data 1).map buffer_store.size = some 24 ∧
    4 * ([0, 0, 0, 2, 0, 0, 0, 2, 2] : List ℚ).length = 36 ∧
    (∀ (β : Type) (P : platform β) (w : world β) (t : triangle β) (v : List β),
      t.m_vbo ∈ w.gl.buffers → t.m_vbo ≠ 0 →
      ((triangle.set_vertices P w t v).2.gl.buffer_data t.m_vbo).map buffer_store.size
        = some P.sizeof_vector) ∧
    (∀ (β : Type) (P : platform β) (w : world β) (c : cube β) (v : List β),
      c.m_vbo ∈ w.gl.buffers → c.m_vbo ≠ 0 →
      ((cube.set_vertices P w c v).2.gl.buffer_data c.m_vbo).map buffer_store.size
        = some 432) := by
  refine ⟨?_, rfl, ?_, ?_⟩
  · exact triangle_set_vertices_upload_size sample.platform0 sample.world1 _ _
      (by decide) (by decide)
  · intro β P w t v h1 h0
    exact triangle_set_vertices_upload_size P w t v h1 h0
  · intro β P w c v h1 h0
    exact cube_set_vertices_upload_size P w c v h1 h0

end set_vertices_results

/-! ## Results: input handling -/

section input_results

open mk

theorem handle_input_of_disabled {α : Type} [Field α] (M : cmath α) (cam : gl_camera α)
    (st : handle_input_statics α) (keys : key_state) (time : α)
    (h : cam.movement_enabled = false) :
    handle_input M cam st keys time = (cam, st) := by
  unfold handle_input
  simp [h]

theorem mouse_callback_of_disabled {α : Type} [LinearOrderedField α] [FloorRing α]
    (M : cmath α) (g : globals α) (st : Option (mouse_callback_statics α)) (cursor_normal : Bool)
    (xpos ypos : α) (h : g.default_camera.movement_enabled = false) :
    (mouse_callback M g st cursor_normal xpos ypos).1 = g := by
  unfold mouse_callback
  simp [h]

/-- C17: when `movement_enabled` is false, `handle_input` leaves the camera (in particular
its position) unchanged for every combination of pressed keys and every time value, and
`mouse_callback` leaves the camera (in particular its pitch, yaw, front and movement
vector) unchanged for every cursor position and cursor mode. -/
theorem C17_movement_disabled_freezes_camera {α : Type} [LinearOrderedField α]
    [FloorRing α] (M : cmath α) (g : globals α) (hst : handle_input_statics α) (keys : key_state) (time : α)
    (mst : Option (mouse_callback_statics α)) (cursor_normal : Bool) (xpos ypos : α)
    (h : g.default_camera.movement_enabled = false) :
    (handle_input M g.default_camera hst keys time).1 = g.default_camera ∧
    (handle_input M g.default_camera hst keys time).1.pos = g.default_camera.pos ∧
    (mouse_callback M g mst cursor_normal xpos ypos).1.default_camera = g.default_camera ∧
    (mouse_callback M g mst cursor_normal xpos ypos).1.default_camera.get_pitch
      = g.default_camera.get_pitch ∧
    (mouse_callback M g mst cursor_normal xpos ypos).1.default_camera.get_yaw
      = g.default_camera.get_yaw ∧
    (mouse_callback M g mst cursor_normal xpos ypos).1.default_camera.front
      = g.default_camera.front ∧
    (mouse_callback M g mst cursor_normal xpos ypos).1.default_camera.get_velocity
      = g.default_camera.get_velocity := by
  rw [handle_input_of_disabled M _ hst keys time h,
    mouse_callback_of_disabled M g mst cursor_normal xpos ypos h]
  exact ⟨rfl, rfl, rfl, rfl, rfl, rfl, rfl⟩

/-- C17 (witness): the statement for the start-up camera with `movement_enabled` cleared,
the keys W and SPACE pressed at time 1, and a cursor event at (400, 300) with the cursor
captured. -/
theorem C17_movement_disabled_freezes_camera_witness :
    ({ globals.initial (⟨Real.sin, Real.cos, Real.sqrt⟩ : cmath ℝ) 1 with
        default_camera :=
          { gl_camera.ctor (⟨Real.sin, Real.cos, Real.sqrt⟩ : cmath ℝ) 1 ⟨0, 0, 30⟩ with
            movement_enabled := false } } : globals ℝ).default_camera.movement_enabled = false ∧
    (handle_input (⟨Real.sin, Real.cos, Real.sqrt⟩ : cmath ℝ)
        ({ gl_camera.ctor (⟨Real.sin, Real.cos, Real.sqrt⟩ : cmath ℝ) 1 ⟨0, 0, 30⟩ with
            movement_enabled := false } : gl_camera ℝ)
        ⟨0, 0⟩ ⟨true, false, false, false, true, false⟩ 1).1.pos = ⟨0, 0, 30⟩ :=
  ⟨rfl,
    (C17_movement_disabled_freezes_camera (⟨Real.sin, Real.cos, Real.sqrt⟩ : cmath ℝ)
      { globals.initial (⟨Real.sin, Real.cos, Real.sqrt⟩ : cmath ℝ) 1 with
        default_camera :=
          { gl_camera.ctor (⟨Real.sin, Real.cos, Real.sqrt⟩ : cmath ℝ) 1 ⟨0, 0, 30⟩ with
            movement_enabled := false } }
      ⟨0, 0⟩ ⟨true, false, false, false, true, false⟩ 1 none false 400 300 rfl).2.1⟩

theorem mouse_callback_pitch_of_first_mouse {α : Type} [LinearOrderedField α] [FloorRing α]
    (M : cmath α)
    (g : globals α) (st : Option (mouse_callback_statics α)) (xpos ypos : α)
    (hfirst : g.first_mouse = true) (hmove : g.default_camera.movement_enabled = true) :
    (mouse_callback M g st false xpos ypos).1.default_camera.get_pitch
      = g.default_camera.get_pitch := by
  unfold mouse_callback
  simp only [hfirst, hmove, Bool.false_or, Bool.not_true, Bool.false_eq_true, if_false,
    if_true]
  rw [mk.gl_camera.get_pitch_set_rotation]
  exact to_float_to_float _

theorem mouse_callback_pitch_of_later {α : Type} [LinearOrderedField α] [FloorRing α]
    (M : cmath α)
    (g : globals α) (st : Option (mouse_callback_statics α)) (xpos ypos : α)
    (hfirst : g.first_mouse = false) (hmove : g.default_camera.movement_enabled = true) :
    -89 ≤ (mouse_callback M g st false xpos ypos).1.default_camera.get_pitch ∧
    (mouse_callback M g st false xpos ypos).1.default_camera.get_pitch ≤ 89 := by
  unfold mouse_callback
  simp only [hfirst, hmove, Bool.false_or, Bool.not_true, Bool.false_eq_true, if_false]
  rw [mk.gl_camera.get_pitch_set_rotation]
  constructor
  · apply le_to_float_of_le (is_float_neg is_float_89)
    split_ifs <;> linarith
  · apply to_float_le_of_le is_float_89
    split_ifs <;> linarith

/-- C18 (evaluation of the code): after `set_rotation(BACK)`, which stores pitch -90, the
first `mouse_callback` after the cursor is captured (`first_mouse` set, cursor disabled,
movement enabled) passes pitch -90 to `set_rotation`: the assignment
`pitch = get_pitch()` for the first event comes after the clamp, so the stored pitch is
outside [-89, 89].  Every later event does pass a pitch within [-89, 89]. -/
theorem C18_first_mouse_event_passes_unclamped_pitch :
    (mouse_callback (⟨Real.sin, Real.cos, Real.sqrt⟩ : cmath ℝ)
        { globals.initial (⟨Real.sin, Real.cos, Real.sqrt⟩ : cmath ℝ) 1 with
          default_camera :=
            (gl_camera.ctor (⟨Real.sin, Real.cos, Real.sqrt⟩ : cmath ℝ) 1
              ⟨0, 0, 30⟩).set_rotation_direction ⟨Real.sin, Real.cos, Real.sqrt⟩
              gl_camera.direction.BACK }
        none false 400 300).1.default_camera.get_pitch = -90 ∧
    ¬ (-89 ≤ (-90 : ℝ)) ∧
    (∀ (g : globals ℝ) (st : Option (mouse_callback_statics ℝ)) (xpos ypos : ℝ),
      g.first_mouse = true → g.default_camera.movement_enabled = true →
      (mouse_callback ⟨Real.sin, Real.cos, Real.sqrt⟩ g st false xpos ypos).1.default_camera.get_pitch
        = g.default_camera.get_pitch) ∧
    (∀ (g : globals ℝ) (st : Option (mouse_callback_statics ℝ)) (xpos ypos : ℝ),
      g.first_mouse = false → g.default_camera.movement_enabled = true →
      -89 ≤ (mouse_callback ⟨Real.sin, Real.cos, Real.sqrt⟩ g st false xpos ypos).1.default_camera.get_pitch ∧
      (mouse_callback ⟨Real.sin, Real.cos, Real.sqrt⟩ g st false xpos ypos).1.default_camera.get_pitch
        ≤ 89) := by
  refine ⟨?_, by norm_num, ?_, ?_⟩
  · rw [mouse_callback_pitch_of_first_mouse _ _ _ _ _ rfl rfl]
    show (gl_camera.set_rotation _ _ (-90) 0).get_pitch = -90
    rw [mk.gl_camera.get_pitch_set_rotation]
    exact (is_float_neg is_float_90).1
  · intro g st xpos ypos h1 h2
    exact mouse_callback_pitch_of_first_mouse _ g st xpos ypos h1 h2
  · intro g st xpos ypos h1 h2
    exact mouse_callback_pitch_of_later _ g st xpos ypos h1 h2

end input_results

/-! ## Results: the horizontal movement vector -/

section velocity_results

open mk

end velocity_results

/-! ## Results: the ray-plane intersection of the picker -/

section pick_plane_lemmas
open glm
variable {α : Type} [LinearOrderedField α] [FloorRing α]

theorem glm.dot_float_unit_y (v : vec3 α) : dot_float v ⟨0, 1, 0⟩ = to_float v.y := by
  unfold dot_float float_add float_mul
  simp only [mul_zero, mul_one, to_float_zero, zero_add, add_zero, to_float_to_float]

theorem glm.intersectRayPlane_plane_y (pos ray : vec3 α) (offset d0 : α) :
    intersectRayPlane pos ray ⟨0, offset, 0⟩ ⟨0, 1, 0⟩ d0 =
      if |to_float ray.y| > epsilon then
        if to_float (to_float (offset - pos.y) / to_float ray.y) > 0 then
          (true, to_float (to_float (offset - pos.y) / to_float ray.y))
        else (false, d0)
      else (false, d0) := by
  unfold intersectRayPlane
  simp only [glm.dot_float_unit_y, vec3.sub_float, float_sub, float_div, to_float_to_float]

/-- A ray within the library's epsilon of parallel: nothing is reported, the distance
keeps its initial value 0 and the placement point is the camera position. -/
theorem pick_plane_of_shallow (pos ray : vec3 α) (offset : α) (hx : is_float pos.x)
    (hy : is_float pos.y) (hz : is_float pos.z) (hr : is_float ray.y)
    (h : |ray.y| ≤ epsilon) :
    pick_plane pos ray offset = { reported := false, distance := 0, placement := pos } := by
  have hr1 : to_float ray.y = ray.y := hr.1
  have hx1 : to_float pos.x = pos.x := hx.1
  have hy1 : to_float pos.y = pos.y := hy.1
  have hz1 : to_float pos.z = pos.z := hz.1
  unfold pick_plane
  dsimp only
  rw [glm.intersectRayPlane_plane_y, hr1, if_neg (not_lt.mpr h)]
  simp only [vec3.add_float, vec3.scale_float, float_add, float_mul, zero_mul, to_float_zero,
    zero_add, hx1, hy1, hz1]

theorem to_float_sub_le_of_lt {a b : α} (ha : is_float a) (hb : is_float b) (h : a < b) :
    to_float (a - b) ≤ -2 ^ (-149 : Int) ∧ 2 ^ (-149 : Int) ≤ to_float (b - a) := by
  have h1 := le_sub_of_is_float_of_lt ha hb h
  have h2 : is_float ((2 : α) ^ (-149 : Int)) := by
    refine ⟨to_float_two_zpow_neg_149, ?_⟩
    rw [abs_of_pos (two_zpow_pos _)]
    calc (2 : α) ^ (-149 : Int) ≤ 2 ^ (0 : Int) := two_zpow_le (by norm_num)
      _ < 2 ^ 128 := by norm_num
  refine ⟨?_, le_to_float_of_le h2 h1⟩
  exact to_float_le_of_le (is_float_neg h2) (by linarith)

/-- The quotient that `glm::intersectRayPlane` computes is positive for a ray that points
toward the plane. -/
theorem pick_quotient_pos (py ry offset : α) (hy : is_float py) (ho : is_float offset)
    (hr2 : |ry| < 2)
    (hto : (offset < py ∧ ry < 0) ∨ (py < offset ∧ 0 < ry)) :
    0 < to_float (to_float (offset - py) / ry) := by
  apply to_float_pos_of_lt
  have hlt := abs_lt.mp hr2
  have h150 : (2 : α) ^ (-149 : Int) = 2 * 2 ^ (-150 : Int) := by
    rw [show (-149 : Int) = -150 + 1 by norm_num, zpow_add_one₀ two_ne_zero]
    ring
  have hpos : (0 : α) < 2 ^ (-150 : Int) := two_zpow_pos _
  rcases hto with ⟨h1, h2⟩ | ⟨h1, h2⟩
  · have h3 := (to_float_sub_le_of_lt ho hy h1).1
    rw [lt_div_iff_of_neg h2]
    nlinarith
  · have h3 := (to_float_sub_le_of_lt hy ho h1).2
    rw [lt_div_iff₀ h2]
    nlinarith

/-- A ray that points toward the plane, more than the library's epsilon away from
parallel: the distance is the rounded quotient and the placement point the rounded
`distance * ray + pos`. -/
theorem pick_plane_of_toward (pos ray : vec3 α) (offset : α) (hy : is_float pos.y)
    (hr : is_float ray.y) (ho : is_float offset)
    (heps : epsilon < |ray.y|) (hr2 : |ray.y| < 2)
    (hto : (offset < pos.y ∧ ray.y < 0) ∨ (pos.y < offset ∧ 0 < ray.y)) :
    pick_plane pos ray offset =
      { reported := true
        distance := to_float (to_float (offset - pos.y) / ray.y)
        placement := vec3.add_float
          (vec3.scale_float (to_float (to_float (offset - pos.y) / ray.y)) ray) pos } := by
  have hr1 : to_float ray.y = ray.y := hr.1
  unfold pick_plane
  dsimp only
  rw [glm.intersectRayPlane_plane_y, hr1, if_pos heps,
    if_pos (pick_quotient_pos pos.y ray.y offset hy ho hr2 hto)]

end pick_plane_lemmas

section pick_bound

theorem abs_le_of_abs_sub_le {α : Type} [LinearOrderedField α] {x y e : α}
    (h : |x - y| ≤ e) : |x| ≤ |y| + e := by
  have := abs_sub_abs_le_abs_sub x y
  linarith

variable {α : Type} [LinearOrderedField α] [FloorRing α]

/-- The rounding error of the quotient `(O - P) / r` in `float` arithmetic. -/
theorem pick_distance_close (P O r : α) (hr1 : 1 / 8388608 < |r|)
    (hP : |P| ≤ 2 ^ 100) (hO : |O| ≤ 2 ^ 100) :
    |to_float (to_float (O - P) / r) - (O - P) / r|
      ≤ |(O - P) / r| / 2 ^ 22 + 1 / 2 ^ 126 := by
  have hu : (2 : α) ^ (-24 : Int) = 1 / 16777216 := by norm_num
  have h127 : (2 : α) ^ (127 : Int) = 2 ^ 127 := by norm_cast
  have hη0 : (0 : α) < 2 ^ (-150 : Int) := two_zpow_pos _
  have hη1 : (2 : α) ^ (-150 : Int) ≤ 1 := by
    calc (2 : α) ^ (-150 : Int) ≤ 2 ^ (0 : Int) := two_zpow_le (by norm_num)
      _ = 1 := by norm_num
  have h126 : (1 : α) / 2 ^ 126 = 16777216 * 2 ^ (-150 : Int) := by norm_num
  have hrpos : 0 < |r| := lt_trans (by norm_num) hr1
  have hrne : r ≠ 0 := abs_pos.mp hrpos
  have hP0 := abs_nonneg P
  have hO0 := abs_nonneg O
  have hAle : |O - P| ≤ |P| + |O| := by
    calc |O - P| ≤ |O| + |P| := abs_sub _ _
      _ = |P| + |O| := add_comm _ _
  have hA0 := abs_nonneg (O - P)
  have hQ : |(O - P) / r| * |r| = |O - P| := by rw [← abs_mul, div_mul_cancel₀ _ hrne]
  have hQ0 := abs_nonneg ((O - P) / r)
  have e1 := abs_to_float_sub_le (O - P) (by rw [h127]; norm_num at hP hO ⊢; linarith)
  rw [hu] at e1
  generalize to_float (O - P) = n1 at e1 ⊢
  have hn1 := abs_le_of_abs_sub_le e1
  have hn0 := abs_nonneg n1
  have hq : |n1 / r| * |r| = |n1| := by rw [← abs_mul, div_mul_cancel₀ _ hrne]
  have hq0 := abs_nonneg (n1 / r)
  have hqle : |n1 / r| ≤ |n1| * 8388608 := by nlinarith
  have e2 := abs_to_float_sub_le (n1 / r) (by rw [h127]; norm_num at hP hO ⊢; linarith)
  rw [hu] at e2
  generalize to_float (n1 / r) = d at e2 ⊢
  have hqQ : |n1 / r - (O - P) / r|
      ≤ |(O - P) / r| * (1 / 16777216) + 2 ^ (-150 : Int) * 8388608 := by
    have h1 : |n1 / r - (O - P) / r| * |r| = |n1 - (O - P)| := by
      rw [← abs_mul, sub_mul, div_mul_cancel₀ _ hrne, div_mul_cancel₀ _ hrne]
    apply le_of_mul_le_mul_right _ hrpos
    rw [h1]
    have h2 : (|(O - P) / r| * (1 / 16777216) + 2 ^ (-150 : Int) * 8388608) * |r|
        = |O - P| * (1 / 16777216) + 2 ^ (-150 : Int) * (8388608 * |r|) := by
      rw [← hQ]
      ring
    rw [h2]
    have h3 : (2 : α) ^ (-150 : Int) * 1 ≤ 2 ^ (-150 : Int) * (8388608 * |r|) :=
      mul_le_mul_of_nonneg_left (by linarith) hη0.le
    linarith
  have hq2 := abs_le_of_abs_sub_le hqQ
  have hfin : |d - (O - P) / r| ≤ |d - n1 / r| + |n1 / r - (O - P) / r| := by
    calc |d - (O - P) / r| = |(d - n1 / r) + (n1 / r - (O - P) / r)| := by ring_nf
      _ ≤ |d - n1 / r| + |n1 / r - (O - P) / r| := abs_add _ _
  rw [h126]
  linarith

/-- The rounding error of the chain `((O - P) / r) * r + P` in `float` arithmetic. -/
theorem pick_placement_y_close (P O r : α) (hr1 : 1 / 8388608 < |r|) (hr2 : |r| < 2)
    (hP : |P| ≤ 2 ^ 100) (hO : |O| ≤ 2 ^ 100) :
    |to_float (to_float (to_float (to_float (O - P) / r) * r) + P) - O|
      ≤ (|P| + |O|) / 2 ^ 21 + 1 / 2 ^ 147 := by
  have hu : (2 : α) ^ (-24 : Int) = 1 / 16777216 := by norm_num
  have h127 : (2 : α) ^ (127 : Int) = 2 ^ 127 := by norm_cast
  have hη0 : (0 : α) < 2 ^ (-150 : Int) := two_zpow_pos _
  have hη1 : (2 : α) ^ (-150 : Int) ≤ 1 := by
    calc (2 : α) ^ (-150 : Int) ≤ 2 ^ (0 : Int) := two_zpow_le (by norm_num)
      _ = 1 := by norm_num
  have h147 : (1 : α) / 2 ^ 147 = 8 * 2 ^ (-150 : Int) := by norm_num
  have hrpos : 0 < |r| := lt_trans (by norm_num) hr1
  have hrne : r ≠ 0 := abs_pos.mp hrpos
  have hP0 := abs_nonneg P
  have hO0 := abs_nonneg O
  have hAle : |O - P| ≤ |P| + |O| := by
    calc |O - P| ≤ |O| + |P| := abs_sub _ _
      _ = |P| + |O| := add_comm _ _
  have hA0 := abs_nonneg (O - P)
  -- first rounding: the difference
  have e1 := abs_to_float_sub_le (O - P) (by rw [h127]; norm_num at hP hO ⊢; linarith)
  rw [hu] at e1
  generalize to_float (O - P) = n1 at e1 ⊢
  have hn1 := abs_le_of_abs_sub_le e1
  have hn0 := abs_nonneg n1
  -- second rounding: the quotient
  have hq : |n1 / r| * |r| = |n1| := by rw [← abs_mul, div_mul_cancel₀ _ hrne]
  have hq0 := abs_nonneg (n1 / r)
  have hqle : |n1 / r| ≤ |n1| * 8388608 := by nlinarith
  have e2 := abs_to_float_sub_le (n1 / r) (by rw [h127]; norm_num at hP hO ⊢; linarith)
  rw [hu] at e2
  generalize to_float (n1 / r) = d at e2 ⊢
  -- the product
  have hpn : d * r - n1 = (d - n1 / r) * r := by rw [sub_mul, div_mul_cancel₀ _ hrne]
  have e3a : |d * r - n1| ≤ |n1| * (1 / 16777216) + 2 ^ (-150 : Int) * 2 := by
    rw [hpn, abs_mul]
    have h1 : |d - n1 / r| * |r| ≤ (|n1 / r| * (1 / 16777216) + 2 ^ (-150 : Int)) * |r| :=
      mul_le_mul_of_nonneg_right e2 hrpos.le
    have h2 : (|n1 / r| * (1 / 16777216) + 2 ^ (-150 : Int)) * |r|
        = |n1| * (1 / 16777216) + 2 ^ (-150 : Int) * |r| := by
      rw [← hq]
      ring
    have h3 : (2 : α) ^ (-150 : Int) * |r| ≤ 2 ^ (-150 : Int) * 2 :=
      mul_le_mul_of_nonneg_left hr2.le hη0.le
    linarith
  have hp := abs_le_of_abs_sub_le e3a
  have hp0 := abs_nonneg (d * r)
  have e3 := abs_to_float_sub_le (d * r) (by rw [h127]; norm_num at hP hO ⊢; linarith)
  rw [hu] at e3
  generalize to_float (d * r) = p at e3 ⊢
  have hp1 := abs_le_of_abs_sub_le e3
  have hp10 := abs_nonneg p
  -- the sum
  have hs : |p + P| ≤ |p| + |P| := abs_add _ _
  have hD : |p - (O - P)| ≤ |p - d * r| + |d * r - n1| + |n1 - (O - P)| := by
    calc |p - (O - P)| = |(p - d * r) + (d * r - n1) + (n1 - (O - P))| := by ring_nf
      _ ≤ |(p - d * r) + (d * r - n1)| + |n1 - (O - P)| := abs_add _ _
      _ ≤ |p - d * r| + |d * r - n1| + |n1 - (O - P)| := by
        linarith [abs_add (p - d * r) (d * r - n1)]
  have hs2 : |p + P| ≤ |O| + |p - (O - P)| := by
    calc |p + P| = |O + (p - (O - P))| := by ring_nf
      _ ≤ |O| + |p - (O - P)| := abs_add _ _
  have e4 := abs_to_float_sub_le (p + P) (by rw [h127]; norm_num at hP hO ⊢; linarith)
  rw [hu] at e4
  generalize to_float (p + P) = Y at e4 ⊢
  have hfin : |Y - O| ≤ |Y - (p + P)| + |p - (O - P)| := by
    calc |Y - O| = |(Y - (p + P)) + (p - (O - P))| := by ring_nf
      _ ≤ |Y - (p + P)| + |p - (O - P)| := abs_add _ _
  rw [h147]
  have hs0 := abs_nonneg (p + P)
  linarith

end pick_bound

section pick_samples
open glm

theorem is_float_one {α : Type} [LinearOrderedField α] [FloorRing α] : is_float (1 : α) :=
  is_float_of_exact 1 0 (2 ^ 23) (by norm_num) (by norm_num)
    (by rw [abs_of_pos (by norm_num)]; norm_num)
    (Or.inr ⟨by norm_num, by rw [abs_of_pos (by norm_num)]; norm_num⟩)
    (by rw [abs_of_pos (by norm_num)]; norm_num)

theorem is_float_two {α : Type} [LinearOrderedField α] [FloorRing α] : is_float (2 : α) :=
  is_float_of_exact 2 1 (2 ^ 23) (by norm_num) (by norm_num)
    (by rw [abs_of_pos (by norm_num)]; norm_num)
    (Or.inr ⟨by norm_num, by rw [abs_of_pos (by norm_num)]; norm_num⟩)
    (by rw [abs_of_pos (by norm_num)]; norm_num)

theorem is_float_five {α : Type} [LinearOrderedField α] [FloorRing α] : is_float (5 : α) :=
  is_float_of_exact 5 2 (5 * 2 ^ 21) (by norm_num) (by norm_num)
    (by rw [abs_of_pos (by norm_num)]; norm_num)
    (Or.inr ⟨by norm_num, by rw [abs_of_pos (by norm_num)]; norm_num⟩)
    (by rw [abs_of_pos (by norm_num)]; norm_num)

/-- The y component of the pick ray of the camera at (0, 0, 2) with pitch -45, yaw 0 and
aspect 4/3, for the cursor at the centre of an 800 by 600 window, is a `float` value. -/
theorem sample.is_float_pitched_y : is_float (2965821 / 4194304 : ℚ) :=
  is_float_of_exact _ (-1) (2965821 * 4) (by norm_num) (by norm_num)
    (by rw [abs_of_pos (by norm_num)]; norm_num)
    (Or.inr ⟨by norm_num, by rw [abs_of_pos (by norm_num)]; norm_num⟩)
    (by rw [abs_of_pos (by norm_num)]; norm_num)

/-- The y component of the pick ray of the camera at (0, 0, 2) with pitch `-2^-20`, yaw 0
and aspect 4/3, for the cursor at the centre of an 800 by 600 window, is a `float`
value. -/
theorem sample.is_float_shallow_y : is_float (9370167 / 562949953421312 : ℚ) :=
  is_float_of_exact _ (-26) 9370167 (by norm_num) (by norm_num)
    (by rw [abs_of_pos (by norm_num)]; norm_num)
    (Or.inr ⟨by norm_num, by rw [abs_of_pos (by norm_num)]; norm_num⟩)
    (by rw [abs_of_pos (by norm_num)]; norm_num)

/-- One frame of the picker in `float` arithmetic: camera position (0, 0, 2), pick ray
`(0, -2965821 / 2^22, -11863283 / 2^24)`, plane height -1. -/
theorem sample.pick_pitched :
    pick_plane (⟨0, 0, 2⟩ : vec3 ℚ) ⟨0, -(2965821 / 4194304), -(11863283 / 16777216)⟩ (-1)
      = { reported := true
          distance := 5931641 / 4194304
          placement := ⟨0, -(16777215 / 16777216), 8388609 / 8388608⟩ } := by
  have h1 : to_float (-1 - 0 : ℚ) = -1 := by
    rw [sub_zero]
    exact (is_float_neg is_float_one).1
  have h2 : to_float ((-1 : ℚ) / -(2965821 / 4194304)) = 5931641 / 4194304 := by
    rw [to_float_of_binade _ 0 11863282 (by norm_num)
      (by rw [abs_of_pos (by norm_num)]; norm_num)
      (Or.inr ⟨by norm_num, by rw [abs_of_pos (by norm_num)]; norm_num⟩)
      (by rw [abs_lt]; constructor <;> norm_num)
      (by rw [abs_of_pos (by norm_num)]; norm_num)]
    norm_num
  have h3 : to_float ((5931641 / 4194304 : ℚ) * -(2965821 / 4194304))
      = -(16777215 / 16777216) := by
    rw [to_float_of_binade _ (-1) (-16777215) (by norm_num)
      (by rw [abs_of_neg (by norm_num)]; norm_num)
      (Or.inr ⟨by norm_num, by rw [abs_of_neg (by norm_num)]; norm_num⟩)
      (by rw [abs_lt]; constructor <;> norm_num)
      (by rw [abs_of_neg (by norm_num)]; norm_num)]
    norm_num
  have h4 : to_float ((5931641 / 4194304 : ℚ) * -(11863283 / 16777216))
      = -(8388607 / 8388608) := by
    rw [to_float_of_binade _ (-1) (-16777214) (by norm_num)
      (by rw [abs_of_neg (by norm_num)]; norm_num)
      (Or.inr ⟨by norm_num, by rw [abs_of_neg (by norm_num)]; norm_num⟩)
      (by rw [abs_lt]; constructor <;> norm_num)
      (by rw [abs_of_neg (by norm_num)]; norm_num)]
    norm_num
  have h5 : to_float (-(16777215 / 16777216) : ℚ) = -(16777215 / 16777216) := by
    rw [← h3]
    exact to_float_to_float _
  have h6 : to_float (-(8388607 / 8388608) + 2 : ℚ) = 8388609 / 8388608 := by
    rw [to_float_of_binade _ 0 8388609 (by norm_num)
      (by rw [abs_of_pos (by norm_num)]; norm_num)
      (Or.inr ⟨by norm_num, by rw [abs_of_pos (by norm_num)]; norm_num⟩)
      (by rw [abs_lt]; constructor <;> norm_num)
      (by rw [abs_of_pos (by norm_num)]; norm_num)]
    norm_num
  have heps : epsilon < |(-(2965821 / 4194304) : ℚ)| := by
    rw [abs_neg, abs_of_pos (by norm_num)]
    unfold epsilon
    norm_num
  have hr2 : |(-(2965821 / 4194304) : ℚ)| < 2 := by
    rw [abs_neg, abs_of_pos (by norm_num)]
    norm_num
  have hto : ((-1 : ℚ) < 0 ∧ (-(2965821 / 4194304) : ℚ) < 0) ∨
      ((0 : ℚ) < -1 ∧ (0 : ℚ) < -(2965821 / 4194304)) := Or.inl ⟨by norm_num, by norm_num⟩
  rw [pick_plane_of_toward (⟨0, 0, 2⟩ : vec3 ℚ)
    ⟨0, -(2965821 / 4194304), -(11863283 / 16777216)⟩ (-1) is_float_zero
    (is_float_neg sample.is_float_pitched_y) (is_float_neg is_float_one) heps hr2 hto]
  simp only [vec3.add_float, vec3.scale_float, float_add, float_mul, h1, h2, h3, h4, h5, h6,
    mul_zero, to_float_zero, add_zero]

end pick_samples

section picker_claims
open glm

/-- C13 (counterexample): two frames with the camera at (0, 0, 2) above the plane
`y = -1` and a pick ray that points toward the plane (negative y component), for the
cursor at the centre of an 800 by 600 window and aspect 4/3.  With the ray
`(0, -9370167 / 2^49, -1)`, the one of pitch `-2^-20` degrees, whose y component is
below the `float` epsilon in magnitude, the picker's distance is 0, not
`(-1 - 0) / ray.y`, and the placement point stays at the camera height 0, not -1.  With
the ray `(0, -2965821 / 2^22, -11863283 / 2^24)`, the one of pitch -45 degrees, the
distance is `5931641 / 2^22`, which is the quotient `(-1 - 0) / ray.y` only up to
rounding, and the placement point lies at height `-16777215 / 2^24`, not -1. -/
theorem C13_counterexample :
    ((-1 : ℚ) < (⟨0, 0, 2⟩ : vec3 ℚ).y ∧ (-(9370167 / 562949953421312) : ℚ) < 0) ∧
    (pick_plane (⟨0, 0, 2⟩ : vec3 ℚ) ⟨0, -(9370167 / 562949953421312), -1⟩ (-1)).distance
      ≠ (-1 - 0) / -(9370167 / 562949953421312) ∧
    (pick_plane (⟨0, 0, 2⟩ : vec3 ℚ) ⟨0, -(9370167 / 562949953421312), -1⟩ (-1)).placement.y
      ≠ -1 ∧
    (-(2965821 / 4194304) : ℚ) < 0 ∧
    (pick_plane (⟨0, 0, 2⟩ : vec3 ℚ) ⟨0, -(2965821 / 4194304), -(11863283 / 16777216)⟩
      (-1)).distance ≠ (-1 - 0) / -(2965821 / 4194304) ∧
    (pick_plane (⟨0, 0, 2⟩ : vec3 ℚ) ⟨0, -(2965821 / 4194304), -(11863283 / 16777216)⟩
      (-1)).placement.y ≠ -1 := by
  have hs : pick_plane (⟨0, 0, 2⟩ : vec3 ℚ) ⟨0, -(9370167 / 562949953421312), -1⟩ (-1)
      = { reported := false, distance := 0, placement := ⟨0, 0, 2⟩ } :=
    pick_plane_of_shallow (⟨0, 0, 2⟩ : vec3 ℚ) ⟨0, -(9370167 / 562949953421312), -1⟩ (-1)
      is_float_zero is_float_zero is_float_two (is_float_neg sample.is_float_shallow_y)
      (by
        show |(-(9370167 / 562949953421312) : ℚ)| ≤ epsilon
        rw [abs_neg, abs_of_pos (by norm_num)]
        unfold epsilon
        norm_num)
  rw [hs, sample.pick_pitched]
  refine ⟨⟨by norm_num, by norm_num⟩, ?_, ?_, by norm_num, ?_, ?_⟩
  · show (0 : ℚ) ≠ _
    norm_num
  · show (0 : ℚ) ≠ -1
    norm_num
  · show (5931641 / 4194304 : ℚ) ≠ _
    norm_num
  · show (-(16777215 / 16777216) : ℚ) ≠ -1
    norm_num

/-- C13 (amended): for every camera position and every pick ray (whatever cursor
position and window size gave it) that points toward the plane `y = plane_height` (camera
above the plane with the ray's y component negative, or below it with the y component
positive) with `|ray.y|` above the `float` epsilon `2^-23` and below 2, and heights of
magnitude at most `2^100`: the picker reports the intersection, its distance is the
`float` quotient of the `float` difference `plane_height - camera.pos.y` by `ray.y`,
within `|q| / 2^22 + 2^-126` of the exact quotient `q`, and the placement point is
`camera.pos + ray * distance` in `float` arithmetic, whose y coordinate is within
`(|camera.pos.y| + |plane_height|) / 2^21 + 2^-147` of `plane_height`; in particular
position (0, 5, 0), ray direction (0, -1, 0) and plane height 0 give distance 5 and
placement (0, 0, 0) exactly.  For a ray with `|ray.y|` at most `2^-23` nothing is
reported, the distance stays 0 and the placement point is the camera position. -/
theorem C13_pick_distance_and_placement {α : Type} [LinearOrderedField α] [FloorRing α]
    (pos ray : vec3 α) (offset : α)
    (hy : is_float pos.y) (hr : is_float ray.y) (ho : is_float offset)
    (hP : |pos.y| ≤ 2 ^ 100) (hO : |offset| ≤ 2 ^ 100)
    (heps : epsilon < |ray.y|) (hr2 : |ray.y| < 2)
    (hto : (offset < pos.y ∧ ray.y < 0) ∨ (pos.y < offset ∧ 0 < ray.y)) :
    (pick_plane pos ray offset).reported = true ∧
    (pick_plane pos ray offset).distance = float_div (float_sub offset pos.y) ray.y ∧
    |(pick_plane pos ray offset).distance - (offset - pos.y) / ray.y|
      ≤ |(offset - pos.y) / ray.y| / 2 ^ 22 + 1 / 2 ^ 126 ∧
    (pick_plane pos ray offset).placement
      = vec3.add_float (vec3.scale_float (pick_plane pos ray offset).distance ray) pos ∧
    |(pick_plane pos ray offset).placement.y - offset|
      ≤ (|pos.y| + |offset|) / 2 ^ 21 + 1 / 2 ^ 147 ∧
    pick_plane (⟨0, 5, 0⟩ : vec3 α) ⟨0, -1, 0⟩ 0
      = { reported := true, distance := 5, placement := ⟨0, 0, 0⟩ } ∧
    (∀ (pos2 ray2 : vec3 α) (offset2 : α), is_float pos2.x → is_float pos2.y →
      is_float pos2.z → is_float ray2.y → |ray2.y| ≤ epsilon →
      pick_plane pos2 ray2 offset2
        = { reported := false, distance := 0, placement := pos2 }) := by
  have h := pick_plane_of_toward pos ray offset hy hr ho heps hr2 hto
  have heps2 : 1 / 8388608 < |ray.y| := heps
  have h5 : to_float (5 : α) = 5 := is_float_five.1
  have h5n : to_float (-5 : α) = -5 := (is_float_neg is_float_five).1
  refine ⟨by rw [h], by rw [h]; rfl, ?_, by rw [h], ?_, ?_, ?_⟩
  · rw [h]
    exact pick_distance_close pos.y offset ray.y heps2 hP hO
  · rw [h]
    show |to_float (to_float (to_float (to_float (offset - pos.y) / ray.y) * ray.y) + pos.y)
      - offset| ≤ _
    exact pick_placement_y_close pos.y offset ray.y heps2 hr2 hP hO
  · have hto5 : ((0 : α) < 5 ∧ (-1 : α) < 0) ∨ ((5 : α) < 0 ∧ (0 : α) < -1) :=
      Or.inl ⟨by norm_num, by norm_num⟩
    rw [pick_plane_of_toward (⟨0, 5, 0⟩ : vec3 α) ⟨0, -1, 0⟩ 0 is_float_five
      (is_float_neg is_float_one) is_float_zero
      (by show epsilon < |(-1 : α)|
          rw [abs_neg, abs_one]; unfold epsilon; norm_num)
      (by show |(-1 : α)| < 2
          rw [abs_neg, abs_one]; norm_num) hto5]
    simp only [vec3.add_float, vec3.scale_float, float_add, float_mul, zero_sub, h5n,
      neg_div_neg_eq, div_one, h5, mul_zero, to_float_zero, add_zero, mul_neg, mul_one,
      neg_add_cancel]
  · intro pos2 ray2 offset2 hx2 hy2 hz2 hr hsh
    exact pick_plane_of_shallow pos2 ray2 offset2 hx2 hy2 hz2 hr hsh

/-- C13 (witness): the camera at (0, 0, 2), the pick ray of pitch -45 degrees and plane
height -1: the intersection is reported and the placement point lies within
`1 / 2^21 + 2^-147` of the plane. -/
theorem C13_pick_distance_and_placement_witness :
    is_float ((⟨0, 0, 2⟩ : vec3 ℚ).y) ∧
    is_float (-(2965821 / 4194304) : ℚ) ∧ is_float (-1 : ℚ) ∧
    (epsilon : ℚ) < |(-(2965821 / 4194304) : ℚ)| ∧ |(-(2965821 / 4194304) : ℚ)| < 2 ∧
    (pick_plane (⟨0, 0, 2⟩ : vec3 ℚ) ⟨0, -(2965821 / 4194304), -(11863283 / 16777216)⟩
      (-1)).reported = true ∧
    |(pick_plane (⟨0, 0, 2⟩ : vec3 ℚ) ⟨0, -(2965821 / 4194304), -(11863283 / 16777216)⟩
      (-1)).placement.y - -1| ≤ (|(0 : ℚ)| + |(-1 : ℚ)|) / 2 ^ 21 + 1 / 2 ^ 147 :=
  have heps : (epsilon : ℚ) < |(-(2965821 / 4194304) : ℚ)| := by
    rw [abs_neg, abs_of_pos (by norm_num)]
    unfold epsilon
    norm_num
  have hr2 : |(-(2965821 / 4194304) : ℚ)| < 2 := by
    rw [abs_neg, abs_of_pos (by norm_num)]
    norm_num
  have hthm := C13_pick_distance_and_placement (⟨0, 0, 2⟩ : vec3 ℚ)
    ⟨0, -(2965821 / 4194304), -(11863283 / 16777216)⟩ (-1) is_float_zero
    (is_float_neg sample.is_float_pitched_y) (is_float_neg is_float_one)
    (by show |(0 : ℚ)| ≤ 2 ^ 100
        rw [abs_zero]; norm_num)
    (by rw [abs_neg, abs_one]; norm_num) heps hr2
    (Or.inl ⟨by show (-1 : ℚ) < 0
                norm_num, by show (-(2965821 / 4194304) : ℚ) < 0
                             norm_num⟩)
  ⟨is_float_zero, is_float_neg sample.is_float_pitched_y, is_float_neg is_float_one, heps, hr2,
    hthm.1, hthm.2.2.2.2.1⟩

/-- C14 (counterexample): previous frame: the camera at (0, 0, 2), the pick ray
`(0, -2965821 / 2^22, -11863283 / 2^24)` of pitch -45 degrees (aspect 4/3, cursor at the
centre of an 800 by 600 window), plane height -1; the
intersection is reported and the placement point is `(0, -16777215 / 2^24, 8388609 / 2^23)`,
next to the plane.  Next frame: the same camera turned level, pick ray (0, 0, -1); the
ray is parallel to the plane, no intersection is reported, and the placement point is the
camera position (0, 0, 2), not the placement point of the previous frame. -/
theorem C14_counterexample :
    (pick_plane (⟨0, 0, 2⟩ : vec3 ℚ) ⟨0, -(2965821 / 4194304), -(11863283 / 16777216)⟩
      (-1)).reported = true ∧
    (⟨0, 0, -1⟩ : vec3 ℚ).y = 0 ∧
    (pick_plane (⟨0, 0, 2⟩ : vec3 ℚ) ⟨0, 0, -1⟩ (-1)).reported = false ∧
    (pick_plane (⟨0, 0, 2⟩ : vec3 ℚ) ⟨0, 0, -1⟩ (-1)).placement = ⟨0, 0, 2⟩ ∧
    (pick_plane (⟨0, 0, 2⟩ : vec3 ℚ) ⟨0, 0, -1⟩ (-1)).placement
      ≠ (pick_plane (⟨0, 0, 2⟩ : vec3 ℚ)
          ⟨0, -(2965821 / 4194304), -(11863283 / 16777216)⟩ (-1)).placement := by
  have hnow : pick_plane (⟨0, 0, 2⟩ : vec3 ℚ) ⟨0, 0, -1⟩ (-1)
      = { reported := false, distance := 0, placement := ⟨0, 0, 2⟩ } :=
    pick_plane_of_shallow (⟨0, 0, 2⟩ : vec3 ℚ) ⟨0, 0, -1⟩ (-1)
      is_float_zero is_float_zero is_float_two is_float_zero
      (by
        show |(0 : ℚ)| ≤ epsilon
        rw [abs_zero]
        unfold epsilon
        norm_num)
  rw [hnow, sample.pick_pitched]
  refine ⟨rfl, rfl, rfl, rfl, ?_⟩
  intro h
  have hy := congrArg vec3.y h
  have hy2 : (0 : ℚ) = -(16777215 / 16777216) := hy
  norm_num at hy2

/-- C14 (amended): in a frame where the pick ray is parallel to the plane
`y = plane_height` (ray direction y component 0), whatever the camera position,
`glm::intersectRayPlane` reports no intersection, `distance` keeps its initial value 0
and the placement point of that frame is the camera position; no placement point of an
earlier frame is kept. -/
theorem C14_parallel_ray_places_at_camera {α : Type} [LinearOrderedField α] [FloorRing α]
    (pos ray : vec3 α) (offset : α) (hx : is_float pos.x) (hy : is_float pos.y)
    (hz : is_float pos.z) (hpar : ray.y = 0) :
    (pick_plane pos ray offset).reported = false ∧
    (pick_plane pos ray offset).distance = 0 ∧
    (pick_plane pos ray offset).placement = pos := by
  have h := pick_plane_of_shallow pos ray offset hx hy hz
    (by rw [hpar]; exact is_float_zero)
    (by rw [hpar, abs_zero]; unfold epsilon; positivity)
  rw [h]
  exact ⟨rfl, rfl, rfl⟩

/-- C14 (witness): the camera at (0, 0, 2) turned level, pick ray (0, 0, -1), plane
height -1: the placement point is (0, 0, 2). -/
theorem C14_parallel_ray_places_at_camera_witness :
    is_float ((⟨0, 0, 2⟩ : vec3 ℚ).x) ∧ is_float ((⟨0, 0, 2⟩ : vec3 ℚ).y) ∧
    is_float ((⟨0, 0, 2⟩ : vec3 ℚ).z) ∧ (⟨0, 0, -1⟩ : vec3 ℚ).y = 0 ∧
    (pick_plane (⟨0, 0, 2⟩ : vec3 ℚ) ⟨0, 0, -1⟩ (-1)).placement = ⟨0, 0, 2⟩ :=
  ⟨is_float_zero, is_float_zero, is_float_two, rfl,
    (C14_parallel_ray_places_at_camera (⟨0, 0, 2⟩ : vec3 ℚ) ⟨0, 0, -1⟩ (-1)
      is_float_zero is_float_zero is_float_two rfl).2.2⟩

end picker_claims

/-! ## Results: assignment operators -/

section assignment_results
open mk.geo

theorem mk.geo.cube_copy_ctor_next_id {α : Type} (P : platform α) (w : world α) (c : cube α) :
    (cube.copy_ctor P w c).2.__next_id = (w.__next_id + 1) % 2 ^ 64 := rfl

theorem mk.geo.cube.move_assign_diverges {α : Type} (P : platform α) (fuel : Nat)
    (w : world α) (this other : cube α) :
    ∃ w1, cube.move_assign P fuel w this other = .error w1 ∧
      w1.__next_id % 2 ^ 64 = (w.__next_id + fuel) % 2 ^ 64 := by
  induction fuel generalizing w other with
  | zero => exact ⟨w, rfl, rfl⟩
  | succ n ih =>
    obtain ⟨w1, h1, h2⟩ := ih (cube.copy_ctor P w other).2 (cube.copy_ctor P w other).1
    refine ⟨w1, ?_, ?_⟩
    · rw [cube.move_assign, h1]
    · rw [h2, cube_copy_ctor_next_id]
      omega

theorem mk.geo.cube.copy_assign_diverges {α : Type} (P : platform α) (fuel : Nat)
    (w : world α) (this other : cube α) :
    ∃ w1, cube.copy_assign P fuel w this other = .error w1 ∧
      w1.__next_id % 2 ^ 64 = (w.__next_id + (fuel + 1)) % 2 ^ 64 := by
  obtain ⟨w1, h1, h2⟩ := cube.move_assign_diverges P fuel (cube.copy_ctor P w other).2 this
    (cube.copy_ctor P w other).1
  refine ⟨w1, ?_, ?_⟩
  · rw [cube.copy_assign, h1]
  · rw [h2, cube_copy_ctor_next_id]
    omega

/-- C21: assigning one cube to another does not return: for every pair of cubes and every
bound on the depth of the nested calls, the copy assignment (a temporary copy, then the
move assignment) and the move assignment (again a temporary copy of its argument, then
the move assignment) reach the bound, and the counter has then advanced by one identity
for every copy made.  The copy assignment of `triangle` returns after one copy
construction and one swap: the target has the vertex data of the source, a fresh handle
pair and its old identity, and the counter has advanced by one. -/
theorem C21_cube_assignment_never_returns {α : Type} [Zero α] (P : platform α) (w : world α) :
    (∀ (fuel : Nat) (this other : cube α),
      ∃ w1, cube.move_assign P fuel w this other = .error w1 ∧
        w1.__next_id % 2 ^ 64 = (w.__next_id + fuel) % 2 ^ 64) ∧
    (∀ (fuel : Nat) (this other : cube α),
      ∃ w1, cube.copy_assign P fuel w this other = .error w1 ∧
        w1.__next_id % 2 ^ 64 = (w.__next_id + (fuel + 1)) % 2 ^ 64) ∧
    (∀ (fuel : Nat) (this other : cube α) (r : cube α × world α),
      cube.copy_assign P fuel w this other ≠ .ok r ∧
      cube.move_assign P fuel w this other ≠ .ok r) ∧
    (∀ this other : triangle α,
      (triangle.copy_assign w this other).1.m_vertices = other.m_vertices ∧
      (triangle.copy_assign w this other).1.m_id = this.m_id ∧
      (triangle.copy_assign w this other).1.m_vao = (triangle.copy_ctor w other).1.m_vao ∧
      (triangle.copy_assign w this other).1.m_vbo = (triangle.copy_ctor w other).1.m_vbo ∧
      (triangle.copy_assign w this other).2.__next_id = (w.__next_id + 1) % 2 ^ 64) := by
  refine ⟨fun fuel this other => cube.move_assign_diverges P fuel w this other,
    fun fuel this other => cube.copy_assign_diverges P fuel w this other, ?_, ?_⟩
  · intro fuel this other r
    obtain ⟨w1, h1, _⟩ := cube.copy_assign_diverges P fuel w this other
    obtain ⟨w2, h2, _⟩ := cube.move_assign_diverges P fuel w this other
    rw [h1, h2]
    exact ⟨nofun, nofun⟩
  · intro this other
    exact ⟨rfl, rfl, rfl, rfl, rfl⟩

/-- C22: for every cube `c` the location of the copy is the location of `c`, and for
every triangle `t` the location of the copy is the origin (0, 0, 0), whatever the
location of `t`; the same holds for the copy of a geometry of either shape, read through
`get_location`. -/
theorem C22_copy_location_per_shape {α : Type} [Zero α] (P : platform α) (w : world α) :
    (∀ c : cube α, (cube.copy_ctor P w c).1.m_location = c.m_location) ∧
    (∀ t : triangle α, (triangle.copy_ctor w t).1.m_location = ⟨⟨0, 0, 0⟩⟩) ∧
    (∀ c : cube α,
      (geometry.copy_ctor P w (geometry.cube c)).1.get_location = c.m_location) ∧
    (∀ t : triangle α,
      (geometry.copy_ctor P w (geometry.triangle t)).1.get_location = ⟨⟨0, 0, 0⟩⟩) :=
  ⟨fun _ => rfl, fun _ => rfl, fun _ => rfl, fun _ => rfl⟩

end assignment_results

/-! ## Results: the sphere mesh -/

section sphere_results

theorem length_flatMap_of_const {ι β : Type} (c : Nat) (f : ι → List β)
    (hf : ∀ i, (f i).length = c) (l : List ι) : (l.flatMap f).length = l.length * c := by
  induction l with
  | nil => simp
  | cons a l ih =>
    rw [List.flatMap_cons, List.length_append, ih, hf, List.length_cons]
    ring

theorem sphere_vertices_length {α : Type} [Field α] (M : cmath α) (sphere_radius : α)
    (sector_count stack_count : Nat) :
    (sphere_vertices M sphere_radius sector_count stack_count).length =
      3 * ((stack_count + 1) * (sector_count + 1)) := by
  unfold sphere_vertices
  rw [length_flatMap_of_const ((sector_count + 1) * 3)]
  · rw [List.length_range]
    ring
  · intro i
    rw [length_flatMap_of_const 3]
    · rw [List.length_range]
    · intro j
      rfl

theorem sphere_indices_row_length (stack_count i n : Nat) (k1 k2 : Int) :
    (sphere_indices_row stack_count i n k1 k2).length =
      n * ((if (i : Int) ≠ 0 then 3 else 0) +
        (if (i : Int) ≠ (stack_count : Int) - 1 then 3 else 0)) := by
  induction n generalizing k1 k2 with
  | zero => simp [sphere_indices_row]
  | succ n ih =>
    rw [sphere_indices_row, List.length_append, List.length_append, ih, Nat.succ_mul]
    split_ifs <;> simp <;> omega

theorem sphere_indices_row_bounds (stack_count i n : Nat) (k1 k2 : Int) (h : k1 ≤ k2)
    (k : Int) (hk : k ∈ sphere_indices_row stack_count i n k1 k2) :
    k1 ≤ k ∧ k ≤ k2 + n := by
  induction n generalizing k1 k2 with
  | zero => simp [sphere_indices_row] at hk
  | succ n ih =>
    rw [sphere_indices_row, List.mem_append, List.mem_append] at hk
    rcases hk with (hk | hk) | hk
    · split_ifs at hk
      · simp at hk
        push_cast
        omega
      · simp at hk
    · split_ifs at hk
      · simp at hk
        push_cast
        omega
      · simp at hk
    · have := ih (k1 + 1) (k2 + 1) (by omega) hk
      push_cast
      omega

theorem sphere_indices_length_aux (sector_count stack_count m : Nat) :
    ((List.range m).flatMap fun i =>
        sphere_indices_row stack_count i sector_count
          ((i : Int) * ((sector_count : Int) + 1))
          ((i : Int) * ((sector_count : Int) + 1) + sector_count + 1)).length =
      sector_count * (3 * (m - (if 0 < m then 1 else 0)) +
        3 * (m - (if (stack_count : Int) - 1 < m ∧ 1 ≤ stack_count then 1 else 0))) := by
  induction m with
  | zero => simp
  | succ m ih =>
    rw [List.range_succ, List.flatMap_append, List.length_append, ih]
    simp only [List.flatMap_cons, List.flatMap_nil, List.append_nil]
    rw [sphere_indices_row_length, ← Nat.mul_add]
    congr 1
    push_cast
    split_ifs <;> omega

theorem sphere_indices_length (sector_count stack_count : Nat) (h : 1 ≤ stack_count) :
    (sphere_indices sector_count stack_count).length = 6 * sector_count * (stack_count - 1) := by
  unfold sphere_indices
  rw [sphere_indices_length_aux]
  rw [if_pos (by omega), if_pos (by omega)]
  ring

theorem sphere_indices_bounds (sector_count stack_count : Nat) (k : Int)
    (hk : k ∈ sphere_indices sector_count stack_count) :
    0 ≤ k ∧ k < (((stack_count + 1) * (sector_count + 1) : Nat) : Int) := by
  unfold sphere_indices at hk
  rw [List.mem_flatMap] at hk
  obtain ⟨i, hi, hk⟩ := hk
  rw [List.mem_range] at hi
  have hb := sphere_indices_row_bounds stack_count i sector_count _ _ (by omega) k hk
  have h1 : (i + 1) * (sector_count + 1) ≤ stack_count * (sector_count + 1) :=
    Nat.mul_le_mul_right _ hi
  have h2 : (((i + 1) * (sector_count + 1) : Nat) : Int) ≤
      ((stack_count * (sector_count + 1) : Nat) : Int) := by exact_mod_cast h1
  have h0 : (0 : Int) ≤ (i : Int) * ((sector_count : Int) + 1) := by positivity
  push_cast at h2 ⊢
  constructor
  · omega
  · nlinarith [hb.1, hb.2]

/-- C23: for every radius, every sector count and every stack count of at least 1,
`__Deprecated_RecreateSphere` leaves `(stacks + 1) * (sectors + 1)` vertices of three
floats each in `sphere_vertices` and `6 * sectors * (stacks - 1)` indices in
`sphere_indices`, and every index `k` in `sphere_indices` is the index of a vertex:
`0 ≤ k < (stacks + 1) * (sectors + 1)`. -/
theorem C23_sphere_counts_and_index_range {α : Type} [Field α] (M : cmath α)
    (sphere_radius : α) (sector_count stack_count : Nat) (h : 1 ≤ stack_count) :
    (__Deprecated_RecreateSphere M sphere_radius sector_count stack_count).1.length =
      3 * ((stack_count + 1) * (sector_count + 1)) ∧
    (__Deprecated_RecreateSphere M sphere_radius sector_count stack_count).2.length =
      6 * sector_count * (stack_count - 1) ∧
    ∀ k ∈ (__Deprecated_RecreateSphere M sphere_radius sector_count stack_count).2,
      0 ≤ k ∧ k < (((stack_count + 1) * (sector_count + 1) : Nat) : Int) :=
  ⟨sphere_vertices_length M sphere_radius sector_count stack_count,
   sphere_indices_length sector_count stack_count h,
   fun k hk => sphere_indices_bounds sector_count stack_count k hk⟩

/-- C23 (witness): the sphere of `main` at start-up, radius 5 with 5 sectors and 5 stacks:
36 vertices (108 floats), 120 indices, every index in `[0, 36)`. -/
theorem C23_sphere_counts_and_index_range_witness :
    1 ≤ 5 ∧
    (__Deprecated_RecreateSphere (⟨Real.sin, Real.cos, Real.sqrt⟩ : cmath ℝ) 5 5 5).1.length
      = 108 ∧
    (__Deprecated_RecreateSphere (⟨Real.sin, Real.cos, Real.sqrt⟩ : cmath ℝ) 5 5 5).2.length
      = 120 ∧
    ∀ k ∈ (__Deprecated_RecreateSphere (⟨Real.sin, Real.cos, Real.sqrt⟩ : cmath ℝ) 5 5 5).2,
      0 ≤ k ∧ k < 36 :=
  ⟨by decide,
    C23_sphere_counts_and_index_range (⟨Real.sin, Real.cos, Real.sqrt⟩ : cmath ℝ) 5 5 5
      (by decide)⟩

end sphere_results
